import Mathlib

/-!
Shallow embedding of the insurance-policy clause extraction, validation and
repair tools (Python), together with proofs about their behaviour.

Conventions of the embedding:
* Python `str` is Lean `String`; all character-level work happens on `.data`
  (`List Char`), which matches Python's code-point view of strings.
* Python dictionaries with optional keys become structures with `Option`
  fields; `d.get(k, default)` becomes `Option.getD`.
* Python truthiness is made explicit (`""`, `[]`, `0`, `None` are falsy).
* `re.search` calls are embedded by dedicated scanners.  The patterns used by
  the sources are simple enough that greedy matching with backtracking
  degenerates to deterministic scanning; each scanner documents the pattern
  it implements.
* Fallible operations (such as Python `int(...)` raising `ValueError`)
  return `Except`/`Option`.

Source files embedded here:
`tools/utils/validators.py`, `tools/utils/fixers.py`, `tools/3_ai_reviewer.py`,
`tools/1_generate_batch.py`, `scripts/parse-coverages-direct.py`,
`generate_batch14_complex.py`, `generate_batch14_final.py`,
`解析结果/fix_all_issues.py`.
-/

namespace PolicyIns

/-! ### Basic string machinery (Python semantics) -/

/-- Boolean test: `p` is a leading segment of `s` (used for substring scans). -/
def pfxB : List Char → List Char → Bool
  | [], _ => true
  | _ :: _, [] => false
  | a :: as, b :: bs => a == b && pfxB as bs

/-- Boolean substring test on character lists (Python `pat in s`). -/
def containsSubList (pat : List Char) : List Char → Bool
  | [] => pat.isEmpty
  | c :: rest => pfxB pat (c :: rest) || containsSubList pat rest

/-- Python `pat in s` for strings. -/
def strContains (s pat : String) : Bool := containsSubList pat.data s.data

/-- Characters Python's `str.strip()` / `str.split()` treat as whitespace
(the ASCII whitespace characters plus the ideographic space, which covers
every input occurring in this corpus). -/
def isPyWs (c : Char) : Bool :=
  c == ' ' || c == '\t' || c == '\n' || c == '\x0d' || c == '\x0b' || c == '\x0c' ||
    c == '　'

/-- Python `str.strip()` on character lists. -/
def pyStripList (cs : List Char) : List Char :=
  ((cs.dropWhile isPyWs).reverse.dropWhile isPyWs).reverse

/-- Python `str.strip()`. -/
def pyStrip (s : String) : String := ⟨pyStripList s.data⟩

/-- Python `str.split()` (split on whitespace runs, dropping empty words):
`cur` accumulates the current word in reverse. -/
def splitWsGo (cur : List Char) : List Char → List (List Char)
  | [] => if cur.isEmpty then [] else [cur.reverse]
  | c :: rest =>
    if isPyWs c then
      if cur.isEmpty then splitWsGo [] rest
      else cur.reverse :: splitWsGo [] rest
    else splitWsGo (c :: cur) rest

/-- Python `s.split()`. -/
def pySplitWs (cs : List Char) : List (List Char) := splitWsGo [] cs

/-- Words joined by a single separator character (`sep.join(words)` with a
one-character separator). -/
def joinWords (sep : Char) : List (List Char) → List Char
  | [] => []
  | [w] => w
  | w :: v :: ws => w ++ sep :: joinWords sep (v :: ws)

/-- Python `' '.join(s.split())` (the whitespace normalization used by
`fix_formula_format`). -/
def collapseWs (cs : List Char) : List Char := joinWords ' ' (pySplitWs cs)

/-- Python `s.split(sep)` for a one-character separator; `acc` holds the
current field in reverse. -/
def splitCharGo (sep : Char) (acc : List Char) : List Char → List (List Char)
  | [] => [acc.reverse]
  | c :: rest =>
    if c == sep then acc.reverse :: splitCharGo sep [] rest
    else splitCharGo sep (c :: acc) rest

/-- Python `s.split(sep)` for a one-character separator, on strings. -/
def pySplitChar (s : String) (sep : Char) : List String :=
  (splitCharGo sep [] s.data).map (fun cs => ⟨cs⟩)

/-- Python `line.split('|||')` (the field separator of the raw-clause
stream), scanning left to right for non-overlapping `|||`. -/
def splitBars3Go (acc : List Char) : List Char → List (List Char)
  | '|' :: '|' :: '|' :: rest => acc.reverse :: splitBars3Go [] rest
  | c :: rest => splitBars3Go (c :: acc) rest
  | [] => [acc.reverse]

def pySplitBars (s : String) : List String :=
  (splitBars3Go [] s.data).map (fun cs => ⟨cs⟩)

/-- Python `sep.join(parts)` on strings. -/
def joinSepStr (sep : String) : List String → String
  | [] => ""
  | [x] => x
  | x :: y :: xs => x ++ sep ++ joinSepStr sep (y :: xs)

/-! ### C9: `parse_waiting_period_status` (scripts/parse-coverages-direct.py) -/

/-- Embedding of `parse_waiting_period_status` from
`scripts/parse-coverages-direct.py` (lines 21-29). -/
def parseWaitingPeriodStatus (clauseText : String) : String :=
  if strContains clauseText "等待期内" || strContains clauseText "观察期内" then
    "during"
  else if strContains clauseText "等待期后" || strContains clauseText "等待期满后" ||
      strContains clauseText "意外" || strContains clauseText "意外伤害" then
    "after"
  else
    "after"

/-! ### Numeric-pattern scanners

The sources use three regular expressions over numbers:
`(\d+(?:\.\d+)?)%`, `(\d+(?:\.\d+)?)\s*%` and `×\s*(\d+(?:\.\d+)?%?)`.
Because the character classes involved are pairwise disjoint (digits, `.`,
whitespace, `%`), greedy matching never backtracks productively: a match at a
position exists iff the maximal digit runs are followed by the rest of the
pattern.  The scanners below implement exactly that. -/

/-- Head match of `\d+(?:\.\d+)?` followed by `%` (with `\s*` before the `%`
when `allowSp` is set); returns the captured number. -/
def numPercentAt (allowSp : Bool) (cs : List Char) : Option (List Char) :=
  let pctAfter : List Char → Bool := fun r =>
    pfxB ['%'] (if allowSp then r.dropWhile isPyWs else r)
  let (d, r1) := cs.span Char.isDigit
  if d.isEmpty then none
  else
    match r1 with
    | '.' :: r2 =>
      let (f, r3) := r2.span Char.isDigit
      if f.isEmpty then none
      else if pctAfter r3 then some (d ++ '.' :: f) else none
    | r1' => if pctAfter r1' then some d else none

/-- Search (`re.search`) for the two percent patterns: leftmost match's group. -/
def numPercentSearch (allowSp : Bool) : List Char → Option (List Char)
  | [] => none
  | c :: rest =>
    (numPercentAt allowSp (c :: rest)).orElse fun _ => numPercentSearch allowSp rest

/-- Head match of `×\s*(\d+(?:\.\d+)?%?)`; returns the captured group
(number with optional fraction and optional percent sign). -/
def xGroupAt (cs : List Char) : Option (List Char) :=
  match cs with
  | '×' :: r0 =>
    let r1 := r0.dropWhile isPyWs
    let (d, r2) := r1.span Char.isDigit
    if d.isEmpty then none
    else
      let fr : List Char × List Char :=
        match r2 with
        | '.' :: r2' =>
          let (f, r4) := r2'.span Char.isDigit
          if f.isEmpty then ([], r2) else ('.' :: f, r4)
        | _ => ([], r2)
      let pct : List Char := match fr.2 with | '%' :: _ => ['%'] | _ => []
      some (d ++ fr.1 ++ pct)
  | _ => none

/-- Search for `×\s*(\d+(?:\.\d+)?%?)`: leftmost match's group. -/
def xGroupSearch : List Char → Option (List Char)
  | [] => none
  | c :: rest => (xGroupAt (c :: rest)).orElse fun _ => xGroupSearch rest

/-! ### C8: `generate_natural_language_description`
(scripts/parse-coverages-direct.py, lines 156-221)

The `age_condition` / `policy_year_range` arguments are the JSON strings
produced by `parse_age_condition` / `parse_policy_year_range` (empty string
for absent).  We embed them already parsed: `None`/`""` becomes `none`, and a
JSON payload becomes the corresponding record, which is exactly what
`json.loads` recovers inside the function. -/

/-- The payload of `parse_age_condition`: `{"limit": int, "operator": str,
"type": str}`. -/
structure AgeJson where
  limit : Int
  operator : String
  ageType : String
  deriving DecidableEq, Repr

/-- The payload of `parse_policy_year_range`: `{"start": int, "end": int|null}`. -/
structure PYJson where
  startY : Int
  endY : Option Int
  deriving DecidableEq, Repr

/-- Python truthiness of an optional integer (`None` and `0` are falsy). -/
def optIntTruthy : Option Int → Bool
  | none => false
  | some n => n != 0

/-- Python `s[:n]`. -/
def pyTake (s : String) (n : Nat) : String := ⟨s.data.take n⟩

/-- The final length cap of `generate_natural_language_description`
(`if len(desc) > 50: desc = desc[:47] + "..."`). -/
def capAt50 (desc : String) : String :=
  if desc.length > 50 then pyTake desc 47 ++ "..." else desc

/-- Embedding of `generate_natural_language_description`. -/
def generateNaturalLanguageDescription (clauseText waitingPeriod formula : String)
    (ageCondition : Option AgeJson) (policyYearRange : Option PYJson) : String :=
  let p1 : List String :=
    if waitingPeriod == "after" then ["等待期后"]
    else if waitingPeriod == "during" then ["等待期内"]
    else []
  let p2 : List String :=
    if strContains clauseText "重大疾病" then ["确诊重大疾病"]
    else if strContains clauseText "中症疾病" || strContains clauseText "中度疾病" then
      ["确诊中症疾病"]
    else if strContains clauseText "轻症疾病" || strContains clauseText "轻度疾病" then
      ["确诊轻症疾病"]
    else if strContains clauseText "恶性肿瘤" then ["确诊恶性肿瘤"]
    else if strContains clauseText "特定疾病" then ["确诊特定疾病"]
    else ["确诊"]
  let p3 : List String :=
    match ageCondition with
    | none => []
    | some a =>
      if a.operator == "<" then [a.ageType ++ "未满" ++ toString a.limit ++ "周岁"]
      else if a.operator == ">=" then [a.ageType ++ "满" ++ toString a.limit ++ "周岁"]
      else []
  let p4 : List String :=
    match policyYearRange with
    | none => []
    | some y =>
      if optIntTruthy y.endY then
        ["且第" ++ toString (y.endY.getD 0 + 1) ++ "个保单周年日前"]
      else if y.startY != 0 then ["且第" ++ toString y.startY ++ "个保单周年日后"]
      else []
  let p5 : List String :=
    if formula != "" then
      if strContains formula "已交保费" then ["，按已交保费给付"]
      else if strContains formula "×" then
        match xGroupSearch formula.data with
        | some g => ["，按投保金额×" ++ ⟨g⟩ ++ "给付"]
        | none => ["，按投保金额给付"]
      else ["，按投保金额给付"]
    else []
  capAt50 (String.join (p1 ++ p2 ++ p3 ++ p4 ++ p5))

/-! ### Numeral normalizers

`CHINESE_NUM_MAP` / `chinese_to_num` from `generate_batch14_complex.py`
(lines 12-44) and `convert_chinese_num` from `tools/utils/validators.py`
(lines 148-164). -/

/-- The `CHINESE_NUM_MAP` of `generate_batch14_complex.py`. -/
def CHINESE_NUM_MAP : List (String × Nat) :=
  [("零", 0), ("一", 1), ("二", 2), ("三", 3), ("四", 4),
   ("五", 5), ("六", 6), ("七", 7), ("八", 8), ("九", 9),
   ("十", 10), ("百", 100),
   ("十八", 18), ("二十", 20), ("二十一", 21), ("二十五", 25),
   ("三十", 30), ("四十", 40), ("五十", 50), ("六十", 60),
   ("七十", 70), ("八十", 80), ("九十", 90),
   ("一百", 100)]

/-- Embedding of `chinese_to_num` (generate_batch14_complex.py lines 22-44).
Python's `chinese_str[i]` indexes code points; the `startswith('十')` branch
is only reachable with length ≥ 2 because `'十'` itself is handled before. -/
def chineseToNum (s : String) : Option Nat :=
  if s = "" then none
  else
    match List.lookup s CHINESE_NUM_MAP with
    | some v => some v
    | none =>
      if strContains s "十" then
        if s = "十" then some 10
        else if pfxB ['十'] s.data then
          match s.data with
          | _ :: c1 :: _ => some (10 + (List.lookup (String.mk [c1]) CHINESE_NUM_MAP).getD 0)
          | _ => some 10
        else
          match s.data with
          | [c0, _] =>
            let tens := (List.lookup (String.mk [c0]) CHINESE_NUM_MAP).getD 0
            if tens > 0 then some (tens * 10) else none
          | [c0, _, c2] =>
            let tens := (List.lookup (String.mk [c0]) CHINESE_NUM_MAP).getD 0
            let ones := (List.lookup (String.mk [c2]) CHINESE_NUM_MAP).getD 0
            if tens > 0 then some (tens * 10 + ones) else none
          | _ => List.lookup s CHINESE_NUM_MAP
      else
        List.lookup s CHINESE_NUM_MAP

/-- A Python value that is either an `int` or a `str` (the possible results
of `convert_chinese_num`, which returns its argument unchanged for
unrecognized input). -/
inductive CNum where
  | num (n : Nat)
  | strVal (s : String)
  deriving DecidableEq, Repr

/-- Python truthiness of a `CNum` (`0` and `""` are falsy). -/
def cnumTruthy : CNum → Bool
  | .num n => n != 0
  | .strVal s => s != ""

/-- Python `str(...)` of a `CNum`. -/
def pyStrOfCNum : CNum → String
  | .num n => toString n
  | .strVal s => s

/-- Python `str.isdigit()` (modelled for ASCII digits, the only digits in
this corpus). -/
def isAsciiDigits (s : String) : Bool := s != "" && s.data.all Char.isDigit

/-- Python `int("...")` on a known digit string. -/
def digitsToNat (cs : List Char) : Nat :=
  cs.foldl (fun a c => a * 10 + (c.toNat - '0'.toNat)) 0

/-- The `cn_num_map` of `tools/utils/validators.py` (single numerals only). -/
def cnNumMap : List (String × Nat) :=
  [("一", 1), ("二", 2), ("三", 3), ("四", 4), ("五", 5),
   ("六", 6), ("七", 7), ("八", 8), ("九", 9), ("十", 10)]

/-- Embedding of `convert_chinese_num` (validators.py lines 148-164): direct
single-numeral lookup, ASCII digits, otherwise the token itself. -/
def convertChineseNum (cn : String) : CNum :=
  match List.lookup cn cnNumMap with
  | some v => .num v
  | none => if isAsciiDigits cn then .num (digitsToNat cn.data) else .strVal cn

/-- The closed Chinese-numeral vocabulary of the spec with the intended
values: the single numerals, 十, 百, 一百, and the composite forms
十X = 10+X, X十 = X·10, X十Y = X·10+Y for X, Y single digits. -/
def cnUnits : List (String × Nat) :=
  [("一", 1), ("二", 2), ("三", 3), ("四", 4), ("五", 5),
   ("六", 6), ("七", 7), ("八", 8), ("九", 9)]

def cnVocab : List (String × Nat) :=
  [("零", 0), ("十", 10), ("百", 100), ("一百", 100)] ++ cnUnits ++
    (cnUnits.map fun p => ("十" ++ p.1, 10 + p.2)) ++
    (cnUnits.map fun p => (p.1 ++ "十", p.2 * 10)) ++
    (cnUnits.flatMap fun p => cnUnits.map fun q => (p.1 ++ "十" ++ q.1, p.2 * 10 + q.2))

/-! ### `has_cumulative_limit` (validators.py lines 13-29)

Embeds `re.search(r'累计给付以([一二三四五六七八九十\d]+)次为限', s)`.  The
character class is disjoint from `次`, so the greedy `+` never backtracks: a
match at a position is exactly "literal, then a maximal non-empty run of
class characters, then the literal tail". -/

/-- The character class `[一二三四五六七八九十\d]`. -/
def isCnDigitChar (c : Char) : Bool :=
  c == '一' || c == '二' || c == '三' || c == '四' || c == '五' ||
    c == '六' || c == '七' || c == '八' || c == '九' || c == '十' || c.isDigit

/-- Drop an expected leading segment, or fail. -/
def dropPfx : List Char → List Char → Option (List Char)
  | [], s => some s
  | _ :: _, [] => none
  | a :: as, b :: bs => if a == b then dropPfx as bs else none

/-- Head match of the cumulative-cap pattern; returns the captured run. -/
def cumMatchAt (cs : List Char) : Option (List Char) :=
  match dropPfx "累计给付以".data cs with
  | none => none
  | some r1 =>
    let run := r1.takeWhile isCnDigitChar
    let r2 := r1.dropWhile isCnDigitChar
    if run.isEmpty then none
    else if pfxB "次为限".data r2 then some run else none

/-- Search of the cumulative-cap pattern: leftmost match's group. -/
def cumSearch : List Char → Option (List Char)
  | [] => none
  | c :: rest => (cumMatchAt (c :: rest)).orElse fun _ => cumSearch rest

/-- Embedding of `has_cumulative_limit` (validators.py lines 13-29).  The
Python `isinstance(..., str) and ....isdigit()` re-parse after
`convert_chinese_num` is mirrored even though `convert_chinese_num` already
converts digit strings. -/
def hasCumulativeLimit (rawText : String) : Option CNum :=
  (cumSearch rawText.data).map fun run =>
    let v := convertChineseNum ⟨run⟩
    match v with
    | .strVal t => if isAsciiDigits t then .num (digitsToNat t.data) else v
    | _ => v

/-- Python truthiness of `has_cumulative_limit`'s result. -/
def optCNumTruthy : Option CNum → Bool
  | none => false
  | some v => cnumTruthy v

/-- Check 1 of `AIReviewer.run_auto_checks` (tools/3_ai_reviewer.py lines
90-100): a `missing_cumulative_limit` finding is emitted for a case iff
`has_cumulative_limit(责任原文)` is truthy and
`not ('累计' in note and '次' in note)`. -/
def emitsMissingCumulativeLimit (rawText note : String) : Bool :=
  optCNumTruthy (hasCumulativeLimit rawText) &&
    !(strContains note "累计" && strContains note "次")

/-! ### Data model

Python dictionaries with optional keys become structures with `Option`
fields (`none` = key absent or `None`); `d.get(k, default)` is
`Option.getD`.  Field names follow the Python keys, romanized where the key
is Chinese (序号 `seqId`, 产品编码 `productCode`, 险种类型/责任类型 `covType`,
责任名称 `covName`, 责任原文 `rawText`) and `startY`/`endY`/`cpType` where the
Python key is a Lean keyword (`start`, `end`, `type`). -/

/-- A `continuousPayment` payload (keys `type`, `totalCount`, `frequency`). -/
structure ContinuousPayment where
  cpType : Option String := none
  totalCount : Option Int := none
  frequency : Option String := none
  deriving DecidableEq, Repr

/-- One age condition as read by the validators/fixers (keys `limit`,
`operator`; the batch-14 extractor's records instead carry `ageType`, `age`,
`maxAge`, so `limit`/`operator` may be absent). -/
structure AgeCondition where
  limit : Option Int := none
  operator : Option String := none
  ageType : Option String := none
  age : Option Int := none
  maxAge : Option Int := none
  deriving DecidableEq, Repr

/-- A policy-year range (keys `start`/`end` in the validator path,
`minYear`/`maxYear` in the batch-14 extractor path). -/
structure PolicyYear where
  startY : Option Int := none
  endY : Option Int := none
  minYear : Option Int := none
  maxYear : Option Int := none
  deriving DecidableEq, Repr

/-- One payout stage. -/
structure Stage where
  stageNumber : Int
  period : String := ""
  waitingPeriodStatus : Option String := none
  paymentPeriodStatus : Option String := none
  formula : Option String := none
  naturalLanguageDescription : Option String := none
  ageConditions : Option (List AgeCondition) := none
  policyYearRange : Option PolicyYear := none
  note : Option String := none
  continuousPayment : Option ContinuousPayment := none
  deriving DecidableEq, Repr

/-- One case record. -/
structure Case where
  seqId : Int
  productCode : Option String := none
  covType : Option String := none
  covName : Option String := none
  rawText : Option String := none
  naturalLanguageDescription : Option String := none
  note : Option String := none
  payoutAmount : Option (List Stage) := none
  deriving DecidableEq, Repr

/-- Python truthiness of an optional string (`None` and `""` are falsy). -/
def optStrTruthy : Option String → Bool
  | none => false
  | some s => s != ""

/-- Python `f"{x}"` for an optional integer (`None` prints as `"None"`). -/
def pyStrOfOptInt : Option Int → String
  | none => "None"
  | some n => toString n

/-! ### More Python string helpers -/

/-- Python `s.split(sep, 1)` for a one-character separator. -/
def splitOnceGo (sep : Char) (acc : List Char) : List Char → List String
  | [] => [⟨acc.reverse⟩]
  | c :: rest =>
    if c == sep then [⟨acc.reverse⟩, ⟨rest⟩] else splitOnceGo sep (c :: acc) rest

/-- Python `s.split(sep, 1)`. -/
def pySplit1 (s : String) (sep : Char) : List String := splitOnceGo sep [] s.data

/-- Python `s.replace(pat, repl)` (all non-overlapping occurrences, left to
right); the pattern is passed as head and tail so it is non-empty. -/
def replaceAllGo (p0 : Char) (pr : List Char) (repl : List Char) :
    List Char → List Char
  | [] => []
  | c :: rest =>
    if pfxB (p0 :: pr) (c :: rest) then
      repl ++ replaceAllGo p0 pr repl (rest.drop pr.length)
    else
      c :: replaceAllGo p0 pr repl rest
termination_by cs => cs.length
decreasing_by
  · simp only [ List.length_cons]
    have := List.length_drop pr.length rest
    omega
  · simp

/-- Python `s.replace(pat, repl)` for strings (non-empty `pat` in all uses;
an empty `pat` returns `s` unchanged, which no caller relies on). -/
def pyReplace (s pat repl : String) : String :=
  match pat.data with
  | [] => s
  | p0 :: pr => ⟨replaceAllGo p0 pr repl.data s.data⟩

/-- Python `s.find(pat)`: index of the leftmost occurrence, or `-1`. -/
def pyFindGo (pat : List Char) : List Char → Nat → Option Nat
  | [], i => if pat.isEmpty then some i else none
  | c :: rest, i => if pfxB pat (c :: rest) then some i else pyFindGo pat rest (i + 1)

def pyFind (s pat : String) : Int :=
  match pyFindGo pat.data s.data 0 with
  | some i => (i : Int)
  | none => -1

/-- Python `s[i:]` (negative indices count from the end, clamped at 0). -/
def pySliceFrom (s : String) (i : Int) : String :=
  if 0 ≤ i then ⟨s.data.drop i.toNat⟩
  else ⟨s.data.drop ((s.data.length : Int) + i).toNat⟩

/-! ### Literal-sequence regex matchers

Patterns of the shape `L1.*L2.*…Ln` (with `.` not matching a newline) are
matched by scanning for `L1` anywhere and then for each later literal within
a newline-free gap, with full backtracking over start positions.  Single
character classes such as `[，,]` are expanded into alternative literal
sequences.  Literals are passed as head and tail so they are non-empty. -/

/-- Match `lits` (each preceded by a `.*` gap) against `cs`. -/
def seqTail (lits : List (Char × List Char)) (cs : List Char) : Bool :=
  match lits, cs with
  | [], _ => true
  | _ :: _, [] => false
  | (c0, lr) :: rest, c :: cs' =>
    (pfxB (c0 :: lr) (c :: cs') && seqTail rest (cs'.drop lr.length))
    || ((c != '\n') && seqTail ((c0, lr) :: rest) cs')
termination_by cs.length
decreasing_by
  · simp only [ List.length_cons]
    have := List.length_drop lr.length cs'
    omega
  · simp

/-- Search for `L1.*L2.*…Ln`: scan for the first literal (the leading
gap may contain anything, newlines included), then match the rest. -/
def reSearchSeq (l1 : Char × List Char) (lits : List (Char × List Char)) :
    List Char → Bool
  | [] => false
  | c :: cs' =>
    (pfxB (l1.1 :: l1.2) (c :: cs') && seqTail lits (cs'.drop l1.2.length))
    || reSearchSeq l1 lits cs'

/-- A literal token as head and tail (all literals used are non-empty). -/
def litTok (s : String) : Char × List Char :=
  match s.data with
  | c :: cs => (c, cs)
  | [] => (' ', [])

/-- Match the pattern `p1.*p2.*…pn` somewhere in `s`. -/
def matchSeqPattern (s : String) : List String → Bool
  | [] => true
  | p :: ps => reSearchSeq (litTok p) (ps.map litTok) s.data

/-- Embedding of `has_termination` (validators.py lines 32-49).  The five
patterns are expanded over the comma class `[，,]`. -/
def hasTermination (rawText : String) : Bool :=
  matchSeqPattern rawText ["给付", "保险金，", "本合同终止"] ||
  matchSeqPattern rawText ["给付", "保险金,", "本合同终止"] ||
  matchSeqPattern rawText ["给付", "保险金，", "责任终止"] ||
  matchSeqPattern rawText ["给付", "保险金,", "责任终止"] ||
  matchSeqPattern rawText ["给付", "保险金责任终止"] ||
  matchSeqPattern rawText ["按", "给付", "，", "本合同终止"] ||
  matchSeqPattern rawText ["按", "给付", ",", "本合同终止"] ||
  matchSeqPattern rawText ["按", "给付", "，", "责任终止"] ||
  matchSeqPattern rawText ["按", "给付", ",", "责任终止"]

/-- Embedding of `detect_payment_period` (validators.py lines 52-80); the
classes `交费期[内间]` / `缴费期[内间]` are expanded into plain substrings. -/
def detectPaymentPeriod (rawText : String) : Option String :=
  if strContains rawText "交费期内" || strContains rawText "交费期间" ||
      strContains rawText "缴费期内" || strContains rawText "缴费期间" ||
      matchSeqPattern rawText ["交费", "期间届满", "前"] ||
      matchSeqPattern rawText ["缴费", "期间届满", "前"] then
    some "during"
  else if strContains rawText "交费期满" || strContains rawText "缴费期满" ||
      matchSeqPattern rawText ["交费", "期间届满", "后"] ||
      matchSeqPattern rawText ["缴费", "期间届满", "以后"] then
    some "after"
  else
    none

/-! ### The four `payout_limit_patterns` of `fix_termination_note` -/

/-- Tests that `k` non-newline characters sit at the head of `r`, then `post`. -/
def gapThen (post : List Char) (r : List Char) (k : Nat) : Bool :=
  ((r.take k).length == k) && (r.take k).all (· != '\n') && pfxB post (r.drop k)

/-- Head match of `pre` `.{1,3}` `post`. -/
def dotRangeAt (pre post : List Char) (cs : List Char) : Bool :=
  match dropPfx pre cs with
  | none => false
  | some r => gapThen post r 1 || gapThen post r 2 || gapThen post r 3

/-- Search for `pre.{1,3}post` anywhere in `cs`. -/
def dotRangeSearch (pre post : List Char) : List Char → Bool
  | [] => false
  | c :: rest => dotRangeAt pre post (c :: rest) || dotRangeSearch pre post rest

/-- A maximal non-empty digit run followed by 次 (the `\d+次` tail of
`累计[最多]?赔?\d+次`; the greedy `\d+` cannot backtrack productively). -/
def digitThenCi (r : List Char) : Bool :=
  let d := r.takeWhile Char.isDigit
  !d.isEmpty && pfxB ['次'] (r.dropWhile Char.isDigit)

/-- Head match of `累计[最多]?赔?\d+次`, with both alternatives of each
optional element (mirroring the regex engine's backtracking). -/
def cumNoteAt (cs : List Char) : Bool :=
  match dropPfx "累计".data cs with
  | none => false
  | some r =>
    let tail2 : List Char → Bool := fun r2 =>
      match r2 with
      | '赔' :: r3 => digitThenCi r3 || digitThenCi r2
      | _ => digitThenCi r2
    match r with
    | c :: r1 => if c == '最' || c == '多' then (tail2 r1 || tail2 r) else tail2 r
    | [] => tail2 []

def cumNoteSearch : List Char → Bool
  | [] => false
  | c :: rest => cumNoteAt (c :: rest) || cumNoteSearch rest

/-- Head match of `仅[限]?.{1,3}次`, with both alternatives of `[限]?`. -/
def jinAt (cs : List Char) : Bool :=
  match dropPfx "仅".data cs with
  | none => false
  | some r =>
    let g : List Char → Bool := fun r2 =>
      gapThen "次".data r2 1 || gapThen "次".data r2 2 || gapThen "次".data r2 3
    match r with
    | '限' :: r1 => g r1 || g r
    | _ => g r

def jinSearch : List Char → Bool
  | [] => false
  | c :: rest => jinAt (c :: rest) || jinSearch rest

/-! ### The repairers (tools/utils/fixers.py), as pure state transformers

Each Python fixer mutates its `case`/`stage` argument and returns a flag; we
return the updated record together with the flag. -/

/-- The note rewrite of `fix_cumulative_limit_note` (fixers.py lines 41-54):
insert `累计最多赔N次` after 每种, or prepend/append it. -/
def cumNewNote (note vStr : String) : String :=
  let newContent := "累计最多赔" ++ vStr ++ "次"
  if note != "" then
    if strContains note "每种" then
      match pySplit1 note '；' with
      | [p0, p1] => p0 ++ "；" ++ newContent ++ "；" ++ p1
      | _ => note ++ "；" ++ newContent
    else newContent ++ "；" ++ note
  else newContent

/-- The `has_累计 or has_最多` guard of `fix_cumulative_limit_note`
(fixers.py lines 33-37): the note already records the cumulative count. -/
def cumNoteHas (note : String) (v : CNum) : Bool :=
  (strContains note "累计" &&
    (strContains note "次" || strContains note (pyStrOfCNum v))) ||
  (strContains note "最多" && strContains note (pyStrOfCNum v))

/-- Embedding of `fix_cumulative_limit_note` (fixers.py lines 20-57);
`note` is `case.get('note', '') or ''`. -/
def fixCumulativeLimitNote (case : Case) : Case × Bool :=
  match hasCumulativeLimit (case.rawText.getD "") with
  | none => (case, false)
  | some v =>
    if cnumTruthy v = false then (case, false)
    else if cumNoteHas (case.note.getD "") v then (case, false)
    else ({ case with
      note := some (cumNewNote (case.note.getD "") (pyStrOfCNum v)) }, true)

/-- The `has_payout_limit` test of `fix_termination_note` (fixers.py lines
73-84): any of the four `payout_limit_patterns` matches the note. -/
def hasPayoutLimit (note : String) : Bool :=
  dotRangeSearch "给付以".data "次为限".data note.data ||
  dotRangeSearch "限赔".data "次".data note.data ||
  cumNoteSearch note.data ||
  jinSearch note.data

/-- Embedding of `fix_termination_note` (fixers.py lines 60-98). -/
def fixTerminationNote (case : Case) : Case × Bool :=
  if hasTermination (case.rawText.getD "") = false then (case, false)
  else if hasPayoutLimit (case.note.getD "") then (case, false)
  else ({ case with
    note := some (if case.note.getD "" != "" then
      "给付以1次为限" ++ "；" ++ case.note.getD "" else "给付以1次为限") }, true)

/-- The per-stage body of `fix_payment_period` (fixers.py lines 115-133). -/
def fixPaymentPeriodStage (status : String) (st : Stage) : Stage :=
  if st.paymentPeriodStatus.isSome then st
  else
    let st1 := { st with paymentPeriodStatus := some status }
    let oldDesc := st.naturalLanguageDescription.getD ""
    if oldDesc != "" then
      let paymentDesc := if status == "during" then "交费期内" else "交费期满后"
      let newDesc :=
        if strContains oldDesc "等待期后" then
          pyReplace oldDesc "等待期后" ("等待期后、" ++ paymentDesc)
        else paymentDesc ++ "、" ++ oldDesc
      { st1 with naturalLanguageDescription := some newDesc }
    else st1

/-- Embedding of `fix_payment_period` (fixers.py lines 101-135); the returned
number counts the stages that gained a `paymentPeriodStatus`. -/
def fixPaymentPeriod (case : Case) : Case × Nat :=
  let rawText := case.rawText.getD ""
  match detectPaymentPeriod rawText with
  | none => (case, 0)
  | some status =>
    match case.payoutAmount with
    | none => (case, 0)
    | some stages =>
      let cnt := (stages.filter fun st => st.paymentPeriodStatus.isNone).length
      ({ case with payoutAmount := some (stages.map (fixPaymentPeriodStage status)) }, cnt)

/-- Embedding of `remove_stage_level_note` (fixers.py lines 226-235). -/
def removeStageLevelNote (st : Stage) : Stage × Bool :=
  match st.note with
  | some _ => ({ st with note := none }, true)
  | none => (st, false)

/-- Python truthiness of a `continuousPayment` dict: `if not cp` is taken
when the dict is empty, i.e. when every key is absent (a field of `none`
encodes an absent key). -/
def cpTruthy (cp : ContinuousPayment) : Bool :=
  cp.cpType.isSome || cp.totalCount.isSome || cp.frequency.isSome

/-- Embedding of `add_continuous_payment_frequency` (fixers.py lines
238-258).  Note that it returns `True` even when the `continuousPayment`
type is unrecognized and nothing was set. -/
def addContinuousPaymentFrequency (st : Stage) : Stage × Bool :=
  match st.continuousPayment with
  | none => (st, false)
  | some cp =>
    if ! cpTruthy cp then (st, false)
    else if cp.frequency.isSome then (st, false)
    else if cp.cpType == some "fixed_count" then
      ({ st with continuousPayment := some { cp with frequency := some "年" } }, true)
    else if cp.cpType == some "until_termination" then
      ({ st with continuousPayment := some { cp with frequency := some "年" } }, true)
    else (st, true)

/-- A stage whose continuousPayment is present (truthy) with an unrecognized
type and no frequency: `add_continuous_payment_frequency` reports a fix here
without performing one. -/
def witFreqStage : Stage :=
  { stageNumber := 1, continuousPayment := some { cpType := some "annual" } }

/-- Python `s.replace(t, '')` for a single character: a character filter. -/
def pyDelChar (t : Char) (cs : List Char) : List Char := cs.filter (fun c => c != t)

/-- Python `s.replace(t, r)` for single characters: a character map. -/
def pyMapChar (t r : Char) (cs : List Char) : List Char :=
  cs.map fun c => if c == t then r else c

/-- The normalization chain of `fix_formula_format` (fixers.py lines
272-281): remove 、，。；, rewrite ×/x/X to `*` (each single-character
`str.replace` is one filter/map pass, in source order), then
`' '.join(s.split())`. -/
def normalizeFormula (formula : String) : String :=
  ⟨collapseWs (pyMapChar 'X' '*' (pyMapChar 'x' '*' (pyMapChar '×' '*'
    (pyDelChar '；' (pyDelChar '。' (pyDelChar '，' (pyDelChar '、' formula.data)))))))⟩

/-- Embedding of `fix_formula_format` (fixers.py lines 261-287). -/
def fixFormulaFormat (st : Stage) : Stage × Bool :=
  let formula := st.formula.getD ""
  if formula = "" then (st, false)
  else
    let nf := normalizeFormula formula
    if nf ≠ formula then ({ st with formula := some nf }, true) else (st, false)

/-! ### Whitespace-collapse lemmas (for `fix_formula_format`) -/

/-! ### C10: `fix_formula_format` is normalizing and idempotent -/

/-- A character allowed in a normalized formula: none of the Chinese
punctuation marks 、，。； and no multiplication symbol other than `*`. -/
def formulaCleanChar (c : Char) : Bool :=
  !(c == '、' || c == '，' || c == '。' || c == '；' ||
    c == '×' || c == 'x' || c == 'X')

/-! ### C2: idempotence of the repairers -/

/-! ### `check_description_completeness` (validators.py lines 83-145) and
`fix_description_completeness` (fixers.py lines 138-223) -/

/-- Embedding of `check_description_completeness`: the missing-parts list
(`原文` is accepted and ignored, as in the source). -/
def checkDescriptionCompleteness (st : Stage) (_rawText : String) : Bool × List String :=
  let desc := st.naturalLanguageDescription.getD ""
  let m1 : List String :=
    if optStrTruthy st.waitingPeriodStatus then
      if st.waitingPeriodStatus.getD "" = "during" then
        if strContains desc "等待期内" then [] else ["等待期内"]
      else if st.waitingPeriodStatus.getD "" = "after" then
        if strContains desc "等待期后" || strContains desc "等待期" then [] else ["等待期后"]
      else []
    else []
  let ageConds := st.ageConditions.getD []
  let m2 : List String :=
    if ageConds.isEmpty then []
    else if ageConds.any (fun cond => strContains desc (pyStrOfOptInt cond.limit ++ "周岁")) then []
    else ["年龄条件"]
  let m3 : List String :=
    match st.policyYearRange with
    | none => []
    | some _ => if strContains desc "保单年度" || strContains desc "年度" then [] else ["保单年度"]
  let m4 : List String :=
    if optStrTruthy st.paymentPeriodStatus then
      if st.paymentPeriodStatus.getD "" = "during" then
        if strContains desc "交费期内" || strContains desc "缴费期内" then [] else ["交费期内"]
      else if st.paymentPeriodStatus.getD "" = "after" then
        if strContains desc "交费期满" || strContains desc "缴费期满" then [] else ["交费期满后"]
      else []
    else []
  let m5 : List String :=
    match st.continuousPayment with
    | none => []
    | some cp =>
      if cp.cpType == some "fixed_count" && optIntTruthy cp.totalCount then
        if strContains desc ("分" ++ pyStrOfOptInt cp.totalCount ++ "次") ||
            strContains desc ("共" ++ pyStrOfOptInt cp.totalCount ++ "次") then []
        else ["持续给付(分" ++ pyStrOfOptInt cp.totalCount ++ "次)"]
      else if cp.cpType == some "until_termination" then
        if strContains desc "持续给付" then [] else ["持续给付至合同终止"]
      else []
  let m6 : List String :=
    if st.formula.getD "" != "" && !(strContains desc (st.formula.getD "")) then
      match numPercentSearch true (st.formula.getD "").data with
      | some r => if strContains desc ⟨r⟩ then [] else ["赔付比例(" ++ ⟨r⟩ ++ "%)"]
      | none => []
    else []
  let missing := m1 ++ m2 ++ m3 ++ m4 ++ m5 ++ m6
  (missing.isEmpty, missing)

/-- The `current_payout` extraction of `fix_description_completeness`
(fixers.py lines 192-207). -/
def currentPayout (desc formula : String) : String :=
  if strContains desc "赔付" then pySliceFrom desc (pyFind desc "按")
  else if strContains desc "退还" then pySliceFrom desc (pyFind desc "退还")
  else if strContains formula "已交保费" then "退还已交保费"
  else if strContains formula "*" && strContains formula "%" then
    match numPercentSearch true formula.data with
    | some r => "按基本保额的" ++ ⟨r⟩ ++ "%赔付"
    | none => ""
  else ""

/-- The fixed-order part list of `fix_description_completeness`
(fixers.py lines 150-190). -/
def descParts (st : Stage) : List String :=
  let p1 : List String :=
    if optStrTruthy st.waitingPeriodStatus then
      if st.waitingPeriodStatus.getD "" = "during" then ["等待期内"]
      else if st.waitingPeriodStatus.getD "" = "after" then ["等待期后"]
      else []
    else []
  let p2 : List String :=
    (st.ageConditions.getD []).flatMap fun cond =>
      if cond.operator == some "<" then [pyStrOfOptInt cond.limit ++ "周岁前"]
      else if cond.operator == some "<=" then [pyStrOfOptInt cond.limit ++ "周岁及以前"]
      else if cond.operator == some ">" then [pyStrOfOptInt cond.limit ++ "周岁后"]
      else if cond.operator == some ">=" then [pyStrOfOptInt cond.limit ++ "周岁及以上"]
      else []
  let p3 : List String :=
    match st.policyYearRange with
    | none => []
    | some py =>
      if optIntTruthy py.startY && optIntTruthy py.endY then
        ["第" ++ pyStrOfOptInt py.startY ++ "-" ++ pyStrOfOptInt py.endY ++ "保单年度"]
      else if optIntTruthy py.startY && !(optIntTruthy py.endY) then
        ["第" ++ pyStrOfOptInt py.startY ++ "保单年度起"]
      else []
  let p4 : List String :=
    if optStrTruthy st.paymentPeriodStatus then
      if st.paymentPeriodStatus.getD "" = "during" then ["交费期内"]
      else if st.paymentPeriodStatus.getD "" = "after" then ["交费期满后"]
      else []
    else []
  p1 ++ p2 ++ p3 ++ p4

/-- Embedding of `fix_description_completeness`: `none` when the description
is already complete, otherwise the re-synthesized description. -/
def fixDescriptionCompleteness (st : Stage) (rawText : String) : Option String :=
  if (checkDescriptionCompleteness st rawText).1 then none
  else
    let desc := st.naturalLanguageDescription.getD ""
    let cur := currentPayout desc (st.formula.getD "")
    some (match st.continuousPayment with
      | some cp =>
        if cp.cpType == some "fixed_count" then
          joinSepStr "、" (descParts st) ++ "确诊，每年" ++ cur ++
            "（分" ++ pyStrOfOptInt cp.totalCount ++ "次）"
        else if cp.cpType == some "until_termination" then
          joinSepStr "、" (descParts st) ++ "确诊，每年" ++ cur ++ "，持续给付至合同终止"
        else joinSepStr "、" (descParts st) ++ "确诊，" ++ cur
      | none => joinSepStr "、" (descParts st) ++ "确诊，" ++ cur)

/-- The `incomplete_description` branch of `AIReviewer.apply_fixes`
(tools/3_ai_reviewer.py lines 219-229): patch one stage of a case in place. -/
def applyDescFix (case : Case) (stageIdx : Nat) : Case :=
  match case.payoutAmount with
  | none => case
  | some stages =>
    if h : stageIdx < stages.length then
      let st := stages.get ⟨stageIdx, h⟩
      match fixDescriptionCompleteness st (case.rawText.getD "") with
      | some newDesc =>
        if newDesc != "" then
          let newStages :=
            stages.set stageIdx { st with naturalLanguageDescription := some newDesc }
          { case with payoutAmount := some newStages }
        else case
      | none => case
    else case

/-- A stage whose description can never become complete: its age condition
uses `operator = "range"` (as produced by the batch-14 extractor), which the
re-synthesis step of `fix_description_completeness` cannot render. -/
def cexDescStage : Stage :=
  { stageNumber := 1,
    ageConditions := some [{ operator := some "range" }],
    continuousPayment := some { cpType := some "fixed_count", totalCount := some 2 },
    formula := some "基本保额 * 70%",
    naturalLanguageDescription := some "" }

def cexDescCase : Case :=
  { seqId := 1, rawText := some "", payoutAmount := some [cexDescStage] }

/-! ### `fix_case` (解析结果/fix_all_issues.py, lines 3-64) -/

/-- The blacklist of `fix_case`: a note part containing any of these is
dropped from the merge. -/
def skipKeywords : List String :=
  ["等待期", "因意外", "确诊", "不给付", "不承担",
   "责任终止", "本项", "按", "赔付", "给付日",
   "当日", "首次", "无", "对应日", "初次"]

/-- The whitelist of `fix_case`: a note part is kept only if it contains one
of these. -/
def keepKeywords : List String :=
  ["限赔", "最多赔", "给付以", "次为限", "累计",
   "需间隔", "需属于", "不同组", "同组",
   "豁免", "额外给付"]

/-- The part filter of `fix_case` (lines 20-36): split on `；`, strip, drop
blacklisted parts, keep whitelisted ones. -/
def filterNoteParts (noteContent : String) : List String :=
  (pySplitChar noteContent '；').filterMap fun part =>
    if skipKeywords.any (fun kw => strContains (pyStrip part) kw) then none
    else if keepKeywords.any (fun kw => strContains (pyStrip part) kw) then
      some (pyStrip part)
    else none

/-- The parts one stage contributes to `all_notes` (lines 16-39). -/
def stageCollectNotes (st : Stage) : List String :=
  match st.note with
  | none => []
  | some ns => if pyStrip ns != "" then filterNoteParts (pyStrip ns) else []

/-- The per-stage mutation of `fix_case`: delete `note` (line 42) and give
`continuousPayment` a default `frequency` (lines 46-49). -/
def fixCaseStage (st : Stage) : Stage :=
  let st1 := match st.note with
    | some _ => { st with note := none }
    | none => st
  match st1.continuousPayment with
  | some cp =>
    if cp.frequency.isNone then
      { st1 with continuousPayment := some { cp with frequency := some "每年对应日" } }
    else st1
  | none => st1

/-- First-occurrence deduplication (the `seen` set of lines 53-58). -/
def dedupFirstGo (seen : List String) : List String → List String
  | [] => []
  | x :: xs => if x ∈ seen then dedupFirstGo seen xs else x :: dedupFirstGo (x :: seen) xs

def dedupFirst (l : List String) : List String := dedupFirstGo [] l

/-- Embedding of `fix_case` (解析结果/fix_all_issues.py lines 3-64). -/
def fixCase (case : Case) : Case × Bool :=
  let step1 : Case × Bool :=
    match case.naturalLanguageDescription, case.payoutAmount with
    | some _, some _ => ({ case with naturalLanguageDescription := none }, true)
    | _, _ => (case, false)
  match step1.1.payoutAmount with
  | none => step1
  | some stages =>
    let allNotes := stages.flatMap stageCollectNotes
    let anyNote := stages.any fun st => st.note.isSome
    let anyFreq := stages.any fun st =>
      match st.continuousPayment with
      | some cp => cp.frequency.isNone
      | none => false
    let c2 : Case := { step1.1 with payoutAmount := some (stages.map fixCaseStage) }
    let flag := step1.2 || anyNote || anyFreq
    if allNotes.isEmpty then (c2, flag)
    else
      if (dedupFirst allNotes).isEmpty then (c2, flag)
      else ({ c2 with note := some (joinSepStr "；" (dedupFirst allNotes)) }, true)

/-! ### C3: the stage-note merge -/

/-- A case whose single stage note is the whitelisted phrase 限赔1次. -/
def witNoteCase : Case :=
  { seqId := 3, payoutAmount := some [{ stageNumber := 1, note := some "限赔1次" }] }

/-- A case whose single stage note carries an interval requirement that
matches no whitelist keyword. -/
def cexNoteCase : Case :=
  { seqId := 2, payoutAmount := some [{ stageNumber := 1, note := some "间隔90日" }] }

/-! ### `parse_remaining_case` (generate_batch14_final.py, lines 19-146) -/

/-- The class `[一二三四五六七八九十]` of the note-count patterns. -/
def isCnChar (c : Char) : Bool :=
  c == '一' || c == '二' || c == '三' || c == '四' || c == '五' ||
    c == '六' || c == '七' || c == '八' || c == '九' || c == '十'

/-- Search for `([一二三四五六七八九十])次为限`: leftmost class char
followed by 次为限. -/
def cnCiWeiXianSearch : List Char → Option Char
  | [] => none
  | c :: rest =>
    if isCnChar c && pfxB "次为限".data rest then some c
    else cnCiWeiXianSearch rest

/-- The lazy tail of `lead.*?([一二三四五六七八九十])次`: the earliest class
char followed by 次, reachable without crossing a newline. -/
def findCnThenCi : List Char → Option Char
  | c1 :: c2 :: rest =>
    if isCnChar c1 && c2 == '次' then some c1
    else if c1 == '\n' then none
    else findCnThenCi (c2 :: rest)
  | _ => none

/-- Search for `lead.*?([一二三四五六七八九十])次`: leftmost `lead`
with a completion; later `lead` occurrences are tried when the gap from an
earlier one cannot complete. -/
def lazyCnSearch (lead : List Char) : List Char → Option Char
  | [] => none
  | c :: rest =>
    (match dropPfx lead (c :: rest) with
     | some r => findCnThenCi r
     | none => none).orElse fun _ => lazyCnSearch lead rest

/-- The note fragments of the single-stage path of `parse_remaining_case`
(lines 121-136). -/
def batchNotes (text : String) : List String :=
  let n1 : List String :=
    if strContains text "限交一次" || strContains text "仅给付一次" ||
        strContains text "限给付一次" || strContains text "以一次为限" then ["限赔1次"]
    else if strContains text "多次" || strContains text "累计给付" then
      match (cnCiWeiXianSearch text.data).orElse fun _ =>
          (lazyCnSearch "累计".data text.data).orElse fun _ =>
            lazyCnSearch "给付".data text.data with
      | some c => ["累计限赔" ++ String.mk [c] ++ "次"]
      | none => []
    else []
  let n2 : List String :=
    if strContains text "运动" && strContains text "达标" then ["需达到运动标准"] else []
  n1 ++ n2

/-- Attach the age conditions to a stage when truthy (lines 106-108). -/
def attachAge (extAge : String → Option (List AgeCondition)) (text : String)
    (st : Stage) : Stage :=
  match extAge text with
  | some l => if l.isEmpty then st else { st with ageConditions := some l }
  | none => st

/-- Attach the policy-year range when truthy (lines 111-113; the extractor
never returns an empty record). -/
def attachYear (extYear : String → Option PolicyYear) (text : String)
    (st : Stage) : Stage :=
  match extYear text with
  | some py => { st with policyYearRange := some py }
  | none => st

/-- Attach the payment-period status when truthy (lines 116-118). -/
def attachPay (extPay : String → Option String) (text : String) (st : Stage) : Stage :=
  if optStrTruthy (extPay text) then { st with paymentPeriodStatus := extPay text }
  else st

/-- The single-stage assembly of `parse_remaining_case` (lines 97-146). -/
def singleStageCase (extAge : String → Option (List AgeCondition))
    (extYear : String → Option PolicyYear) (extPay : String → Option String)
    (seq : Int) (code category name text formula desc : String) : Case :=
  let st3 := attachPay extPay text (attachYear extYear text (attachAge extAge text
    { stageNumber := 1, period := "等待期后",
      formula := some formula, naturalLanguageDescription := some desc }))
  let st4 := if (batchNotes text).isEmpty then st3
    else { st3 with note := some (joinSepStr "；" (batchNotes text)) }
  { seqId := seq, productCode := some code, covType := some category,
    covName := some name, payoutAmount := some [st4] }

/-- Stage 1 of the waiting/premium split (lines 37-43). -/
def waitStage : Stage :=
  { stageNumber := 1, period := "等待期内", formula := some "已交保费",
    naturalLanguageDescription := some "等待期内确诊，返还已交保费" }

/-- Stage 2 of the waiting/premium split (lines 46-62): age conditions and
policy-year range attach here, and only here. -/
def afterStageFor (extAge : String → Option (List AgeCondition))
    (extYear : String → Option PolicyYear) (text : String) : Stage :=
  attachYear extYear text (attachAge extAge text
    { stageNumber := 2, period := "等待期后", formula := some "基本保额 * 100%",
      naturalLanguageDescription := some "等待期后确诊，按基本保额赔付" })

/-- Embedding of `parse_remaining_case` (generate_batch14_final.py,
lines 19-146). -/
def parseRemainingCase (extAge : String → Option (List AgeCondition))
    (extYear : String → Option PolicyYear) (extPay : String → Option String)
    (seq : Int) (code category name text : String) : Case :=
  if strContains text "下表" || strContains text "表格" then
    singleStageCase extAge extYear extPay seq code category name text
      "按表格赔付" "按表格比例赔付"
  else if strContains text "已交保费" || strContains text "已交纳" ||
      strContains text "已支付的保险费" then
    if strContains text "等待期内" || strContains text "180日内" ||
        strContains text "90日内" then
      { seqId := seq, productCode := some code, covType := some category,
        covName := some name,
        payoutAmount := some [waitStage, afterStageFor extAge extYear text] }
    else
      singleStageCase extAge extYear extPay seq code category name text
        "已交保费" "确诊后返还已交保费"
  else if strContains text "现金价值" then
    singleStageCase extAge extYear extPay seq code category name text
      "已交保费或现金价值的较大者" "按已交保费或现金价值的较大者赔付"
  else if strContains text "%" then
    match numPercentSearch false text.data with
    | some p =>
      singleStageCase extAge extYear extPay seq code category name text
        ("基本保额 * " ++ String.mk p ++ "%") ("按基本保额×" ++ String.mk p ++ "%赔付")
    | none =>
      singleStageCase extAge extYear extPay seq code category name text
        "基本保额 * 100%" "按基本保额赔付"
  else
    singleStageCase extAge extYear extPay seq code category name text
      "基本保额 * 100%" "按基本保额赔付"

/-! ### The batch-14 merge (`main` of generate_batch14_final.py,
lines 164-194) -/

/-- Python `s.startswith(pat)`. -/
def strStartsWith (s pat : String) : Bool := pfxB pat.data s.data

/-- The sort key comparison `lambda x: x['序号']`. -/
def caseLe (a b : Case) : Bool := a.seqId ≤ b.seqId

/-- The unparsed-line selection of `main` (lines 167-174): a line
contributes a case when it has at least five fields, a digit sequence
number, and that number is neither already parsed nor beyond 2800. -/
def newCasesOf (extAge : String → Option (List AgeCondition))
    (extYear : String → Option PolicyYear) (extPay : String → Option String)
    (parsedSeqs : List Int) (lines : List String) : List Case :=
  lines.filterMap fun line =>
    match pySplitBars (pyStrip line) with
    | p0 :: p1 :: p2 :: p3 :: p4 :: _ =>
      if isAsciiDigits p0 then
        if (digitsToNat p0.data : Int) ∉ parsedSeqs ∧ (digitsToNat p0.data : Int) ≤ 2800 then
          some (parseRemainingCase extAge extYear extPay
            (digitsToNat p0.data : Int) p1 p2 p3 p4)
        else none
      else none
    | _ => none

/-- The merge core of `main`: parse every unparsed in-range line, append the
new cases to the existing ones and sort by 序号 (lines 164-194). -/
def mergeBatch (extAge : String → Option (List AgeCondition))
    (extYear : String → Option PolicyYear) (extPay : String → Option String)
    (existing : List Case) (lines : List String) : List Case :=
  (existing ++
    newCasesOf extAge extYear extPay (existing.map Case.seqId) lines).mergeSort caseLe

/-! ### The batch loaders (C7) -/

/-- One raw-clause record (保单ID号, 责任类型, 责任名称, 责任原文). -/
structure RawRec where
  policyId : String
  recType : String
  recName : String
  recText : String
  deriving DecidableEq, Repr

/-- Python `int(s)`: strip whitespace, optional sign, decimal digits;
anything else raises `ValueError` (underscore separators are not modelled —
they do not occur in this corpus). -/
def pyIntParse (s : String) : Except Unit Int :=
  match (pyStrip s).data with
  | '-' :: ds => if !ds.isEmpty && ds.all Char.isDigit then .ok (-(digitsToNat ds : Int))
    else .error ()
  | '+' :: ds => if !ds.isEmpty && ds.all Char.isDigit then .ok (digitsToNat ds : Int)
    else .error ()
  | ds => if !ds.isEmpty && ds.all Char.isDigit then .ok (digitsToNat ds : Int)
    else .error ()

/-- The per-line loop of `load_raw_data` (tools/1_generate_batch.py, lines
43-59).  `int(parts[0])` is unguarded: a non-numeric sequence-number field in
a line with at least five fields raises `ValueError`, aborting the batch. -/
def loadRawGo (start stop : Int) : List String → List (Int × RawRec) →
    Except String (List (Int × RawRec))
  | [], acc => .ok acc.reverse
  | line :: rest, acc =>
    if pyStrip line = "" || strStartsWith (pyStrip line) "#" ||
        strStartsWith (pyStrip line) "序号范围" then
      loadRawGo start stop rest acc
    else
      match pySplitBars (pyStrip line) with
      | p0 :: p1 :: p2 :: p3 :: p4 :: _ =>
        match pyIntParse p0 with
        | .error _ => .error ("ValueError: invalid literal for int(): " ++ p0)
        | .ok seq =>
          if start ≤ seq ∧ seq ≤ stop then
            loadRawGo start stop rest ((seq, ⟨p1, p2, p3, p4⟩) :: acc)
          else loadRawGo start stop rest acc
      | _ => loadRawGo start stop rest acc

/-- Embedding of `load_raw_data` over an in-memory line list. -/
def loadRawDataLines (start stop : Int) (lines : List String) :
    Except String (List (Int × RawRec)) :=
  loadRawGo start stop lines []

/-- The per-line loop of `parse_md_file`
(scripts/parse-coverages-direct.py, lines 306-357): malformed records —
fewer than five fields or a non-numeric or non-positive sequence number —
are skipped and the batch continues. -/
def parseMdLines (lines : List String) : List (Int × RawRec) :=
  lines.filterMap fun line0 =>
    let line := pyStrip line0
    if line = "```" || strStartsWith line "#" then none
    else if line = "" then none
    else if !(strContains line "|||") then none
    else
      match (pySplitBars line).map pyStrip with
      | p0 :: p1 :: p2 :: p3 :: p4 :: _ =>
        match pyIntParse p0 with
        | .error _ => none
        | .ok n => if n ≤ 0 then none else some (n, ⟨p1, p2, p3, p4⟩)
      | _ => none

/-! ### C1: the waiting/premium split -/

/-- A clause with premium-return language and a during-waiting marker that
ALSO contains a tabular reference; none of the age/year/payment phrases
occur, so the constant-`none` extractors agree with the real ones here. -/
def cexTableCase : Case :=
  parseRemainingCase (fun _ => none) (fun _ => none) (fun _ => none) 9 "P9" "重疾"
    "恶性肿瘤" "下表等待期内退还已交保费"

/-! ### C5: merge ordering and duplicate handling -/

/-- An existing batch-14 case with sequence id 2601. -/
def cexMergeExisting : Case :=
  { seqId := 2601, productCode := some "P0", payoutAmount := some [{ stageNumber := 1 }] }

/-! ### C7: malformed raw-clause lines -/

/-- A raw line with five fields whose sequence-number field is not numeric. -/
def badSeqLine : String := "x123|||P|||重疾|||恶性肿瘤|||等待期后给付"

/-! ## Theorems -/

theorem pfxB_iff (p s : List Char) : pfxB p s = true ↔ p <+: s := by
  induction p generalizing s with
  | nil => simp [ pfxB]
  | cons a as ih =>
    cases s with
    | nil =>
      simp only [ pfxB, Bool.false_eq_true, false_iff]
      intro h
      exact absurd h.length_le (by simp)
    | cons b bs =>
      simp [ pfxB, List.cons_prefix_cons, ih]

theorem containsSubList_iff (p s : List Char) : containsSubList p s = true ↔ p <:+: s := by
  induction s with
  | nil =>
    simp only [ containsSubList, List.isEmpty_iff]
    constructor
    · intro h; simp [ h]
    · intro h; exact List.eq_nil_of_infix_nil h
  | cons c cs ih =>
    simp [ containsSubList, List.infix_cons_iff, pfxB_iff, ih]

theorem strContains_iff (s pat : String) :
    strContains s pat = true ↔ pat.data <:+: s.data :=
  containsSubList_iff _ _

/-- A substring of the right part of a concatenation is a substring of the whole. -/
theorem strContains_append_right (a b pat : String) (h : strContains b pat = true) :
    strContains (a ++ b) pat = true := by
  rw [ strContains_iff] at h ⊢
  rw [ String.data_append]
  exact h.trans (List.suffix_append a.data b.data).isInfix

/-- A substring of the left part of a concatenation is a substring of the whole. -/
theorem strContains_append_left (a b pat : String) (h : strContains a pat = true) :
    strContains (a ++ b) pat = true := by
  rw [ strContains_iff] at h ⊢
  rw [ String.data_append]
  exact h.trans ( List.prefix_append a.data b.data).isInfix

/-- Substring containment is transitive. -/
theorem strContains_trans (a b pat : String)
    (h1 : strContains a pat = true) (h2 : strContains b a = true) :
    strContains b pat = true := by
  rw [ strContains_iff] at h1 h2 ⊢
  exact h1.trans h2

theorem strContains_self (s : String) : strContains s s = true := by
  rw [ strContains_iff]

theorem orIntroL {a b : Bool} (h : a = true) : (a || b) = true := by
  rw [ h]
  rfl

theorem orIntroR {a b : Bool} (h : b = true) : (a || b) = true := by
  rw [ h, Bool.or_true]

theorem andIntro {a b : Bool} (h1 : a = true) (h2 : b = true) : (a && b) = true := by
  rw [ h1, h2]
  rfl

/-- Every member of a joined list is a substring of the join. -/
theorem strContains_joinSepStr (sep : String) (l : List String) (x : String)
    (hx : x ∈ l) : strContains (joinSepStr sep l) x = true := by
  induction l with
  | nil => cases hx
  | cons a as ih =>
    cases as with
    | nil =>
      rcases List.mem_singleton.mp hx with rfl
      exact strContains_self _
    | cons b bs =>
      rcases List.mem_cons.mp hx with rfl | hmem
      · show strContains (x ++ sep ++ joinSepStr sep (b :: bs)) x = true
        exact strContains_append_left _ _ _ (strContains_append_left _ _ _ (strContains_self x))
      · show strContains (a ++ sep ++ joinSepStr sep (b :: bs)) x = true
        exact strContains_append_right _ _ _ (ih hmem)

/-- C9: `parse_waiting_period_status` is total with range exactly
{"during", "after"}: it returns "during" precisely when the clause contains
等待期内 or 观察期内, and "after" for every other clause (including clauses
with no waiting-period phrase, which take the default branch, and clauses
mentioning only accident terms). It never returns a null/absent value. -/
theorem parseWaitingPeriodStatus_spec (t : String) :
    (parseWaitingPeriodStatus t = "during" ∨ parseWaitingPeriodStatus t = "after") ∧
      (parseWaitingPeriodStatus t = "during" ↔
        (strContains t "等待期内" = true ∨ strContains t "观察期内" = true)) := by
  unfold parseWaitingPeriodStatus
  by_cases h : (strContains t "等待期内" || strContains t "观察期内") = true
  · rw [ if_pos h]
    simp only [Bool.or_eq_true] at h
    exact ⟨Or.inl rfl, by simpa using h⟩
  · rw [ if_neg h]
    simp only [Bool.or_eq_true] at h
    push_neg at h
    constructor
    · split <;> simp
    · constructor
      · intro hd
        exfalso
        revert hd
        split <;> simp
      · intro hc
        rcases hc with hc | hc
        · exact absurd hc h.1
        · exact absurd hc h.2

theorem capAt50_length_le (desc : String) : (capAt50 desc).length ≤ 50 := by
  unfold capAt50
  by_cases h : desc.length > 50
  · rw [ if_pos h, String.length_append]
    have h1 : (pyTake desc 47).length ≤ 47 := by
      show (desc.data.take 47).length ≤ 47
      simp [ List.length_take]
    have h2 : ("..." : String).length = 3 := rfl
    omega
  · rw [ if_neg h]
    omega

/-- C8: every description produced by `generate_natural_language_description`
has at most 50 characters; a longer synthesized description is cut to its
first 47 characters plus "..." (length 50). -/
theorem generateNaturalLanguageDescription_length_le
    (clauseText waitingPeriod formula : String)
    (ageCondition : Option AgeJson) (policyYearRange : Option PYJson) :
    (generateNaturalLanguageDescription clauseText waitingPeriod formula
        ageCondition policyYearRange).length ≤ 50 := by
  unfold generateNaturalLanguageDescription
  exact capAt50_length_le _

theorem dropPfx_eq_some (p : List Char) :
    ∀ s r, dropPfx p s = some r ↔ s = p ++ r := by
  induction p with
  | nil => intro s r; simp [ dropPfx, eq_comm]
  | cons a as ih =>
    intro s r
    cases s with
    | nil => simp [ dropPfx]
    | cons b bs =>
      by_cases hab : a = b
      · subst hab
        simp [ dropPfx, ih]
      · have hab' : (a == b) = false := by simp [ hab]
        simp only [ dropPfx, hab', Bool.false_eq_true, if_false, List.cons_append,
          List.cons.injEq]
        constructor
        · intro h; exact absurd h (by simp)
        · rintro ⟨h1, -⟩
          exact absurd h1.symm hab

theorem cumMatchAt_sound (cs run : List Char) (h : cumMatchAt cs = some run) :
    ∃ post, cs = "累计给付以".data ++ run ++ "次为限".data ++ post ∧
      run ≠ [] ∧ run.all isCnDigitChar = true := by
  unfold cumMatchAt at h
  rcases hd : dropPfx "累计给付以".data cs with _ | r1
  · rw [ hd] at h; exact absurd h (by simp)
  · rw [ hd] at h
    simp only at h
    by_cases he : (r1.takeWhile isCnDigitChar).isEmpty
    · rw [ if_pos he] at h; exact absurd h (by simp)
    · rw [ if_neg he] at h
      by_cases hp : pfxB "次为限".data (r1.dropWhile isCnDigitChar) = true
      · rw [ if_pos hp] at h
        have hrun : run = r1.takeWhile isCnDigitChar := by
          cases h; rfl
        rcases (pfxB_iff _ _).mp hp with ⟨post, hpost⟩
        refine ⟨post, ?_, ?_, ?_⟩
        · rw [ (dropPfx_eq_some _ _ _).mp hd, hrun]
          have hr1 : r1 = r1.takeWhile isCnDigitChar ++ ("次为限".data ++ post) := by
            rw [ hpost, List.takeWhile_append_dropWhile]
          conv_lhs => rw [ hr1]
          simp [ List.append_assoc]
        · rw [ hrun]
          intro hnil
          rw [ hnil] at he
          exact he rfl
        · rw [ hrun]
          exact List.all_eq_true.mpr fun c hc => List.mem_takeWhile_imp hc
      · rw [ if_neg hp] at h
        exact absurd h (by simp)

theorem cumSearch_sound (cs run : List Char) (h : cumSearch cs = some run) :
    ∃ pre post, cs = pre ++ "累计给付以".data ++ run ++ "次为限".data ++ post ∧
      run ≠ [] ∧ run.all isCnDigitChar = true := by
  induction cs with
  | nil => exact absurd h (by simp [ cumSearch])
  | cons c rest ih =>
    rw [ cumSearch] at h
    rcases hm : cumMatchAt (c :: rest) with _ | r
    · rw [ hm] at h
      have h' : cumSearch rest = some run := h
      rcases ih h' with ⟨pre, post, hcs, hne, hall⟩
      exact ⟨c :: pre, post, by simp [ hcs], hne, hall⟩
    · rw [ hm] at h
      have h' : some r = some run := h
      cases h'
      rcases cumMatchAt_sound _ _ hm with ⟨post, hcs, hne, hall⟩
      exact ⟨[], post, by simpa using hcs, hne, hall⟩

/-- C4 (amended): `chinese_to_num` returns the correct integer for every
token of the closed vocabulary (digits, 十, 百, 一百, and the composite forms
十X = 10+X, X十 = X·10, X十Y = X·10+Y with X, Y single digits);
`convert_chinese_num` returns the correct integer for every ASCII-digit token
in [0,100]; and a token that contains no 十 and is not in the direct lookup
table yields no value from `chinese_to_num`.  (Tokens outside the closed
vocabulary that do contain 十 can yield wrong or out-of-range integers — see
the counterexample.) -/
theorem chinese_numeral_normalizer_spec :
    (cnVocab.all fun p => chineseToNum p.1 == some p.2) = true ∧
    ((List.range 101).all fun n => convertChineseNum (toString n) == CNum.num n) = true ∧
    (∀ s, strContains s "十" = false → List.lookup s CHINESE_NUM_MAP = none →
      chineseToNum s = none) := by
  refine ⟨by decide, by decide, ?_⟩
  intro s h1 h2
  unfold chineseToNum
  by_cases hs : s = ""
  · rw [ if_pos hs]
  · rw [ if_neg hs, h2]
    simp [ h1]

/-- Witness for `chinese_numeral_normalizer_spec` at a concrete token. -/
theorem chinese_numeral_normalizer_spec_witness :
    chineseToNum "猫" = none ∧ strContains "猫" "十" = false :=
  ⟨chinese_numeral_normalizer_spec.2.2 "猫" (by decide) (by decide), by decide⟩

/-- C4 counterexample: the claim "returns 'no value' for every token outside
this closed vocabulary, including malformed composites" is false.
`chinese_to_num` maps the malformed composite 十百 to 110 (out of the claimed
[0,100] range) and 十猫 to 10 (the unknown ones digit silently defaults
to 0), and `convert_chinese_num` returns the composite token 二十一 itself
(a non-integer value) instead of 21 or "no value". -/
theorem chinese_to_num_malformed_counterexample :
    chineseToNum "十百" = some 110 ∧ chineseToNum "十猫" = some 10 ∧
      (cnVocab.all fun p => p.1 != "十百") = true ∧
      (cnVocab.all fun p => p.1 != "十猫") = true ∧
      convertChineseNum "二十一" = CNum.strVal "二十一" := by
  decide

/-- C6 (amended): a `missing_cumulative_limit` finding is emitted iff
`has_cumulative_limit` finds a truthy cumulative count in the raw clause and
the case-level note does NOT contain both the marker 累计 and the character
次.  Whenever a finding is emitted, the raw clause indeed decomposes around a
non-empty numeral run as 累计给付以N次为限.  (The extracted number N itself
is never compared against the note — see the counterexample.) -/
theorem missing_cumulative_limit_emission_spec (rawText note : String) :
    (emitsMissingCumulativeLimit rawText note = true ↔
      (optCNumTruthy (hasCumulativeLimit rawText) = true ∧
        ¬(strContains note "累计" = true ∧ strContains note "次" = true))) ∧
    (emitsMissingCumulativeLimit rawText note = true →
      ∃ pre run post,
        rawText.data = pre ++ "累计给付以".data ++ run ++ "次为限".data ++ post ∧
          run ≠ [] ∧ run.all isCnDigitChar = true) := by
  constructor
  · unfold emitsMissingCumulativeLimit
    rcases Bool.eq_false_or_eq_true (optCNumTruthy (hasCumulativeLimit rawText)) with ht | ht <;>
      rcases Bool.eq_false_or_eq_true (strContains note "累计") with ha | ha <;>
        rcases Bool.eq_false_or_eq_true (strContains note "次") with hb | hb <;>
          simp [ ht, ha, hb]
  · intro h
    unfold emitsMissingCumulativeLimit at h
    rw [ Bool.and_eq_true] at h
    rcases h with ⟨ht, -⟩
    unfold hasCumulativeLimit at ht
    rcases hc : cumSearch rawText.data with _ | run
    · rw [ hc] at ht
      exact absurd ht (by simp [ optCNumTruthy])
    · rcases cumSearch_sound _ _ hc with ⟨pre, post, hcs, hne, hall⟩
      exact ⟨pre, run, post, hcs, hne, hall⟩

/-- Witness for `missing_cumulative_limit_emission_spec` at a concrete
clause and note. -/
theorem missing_cumulative_limit_emission_spec_witness :
    ∃ pre run post,
      ("条款累计给付以3次为限" : String).data =
          pre ++ "累计给付以".data ++ run ++ "次为限".data ++ post ∧
        run ≠ [] ∧ run.all isCnDigitChar = true :=
  (missing_cumulative_limit_emission_spec "条款累计给付以3次为限" "").2 (by decide)

/-- C6 counterexample: the claim "when the note already carries either the
cumulative marker or N, no Finding is emitted" is false.  With raw clause
累计给付以3次为限, a note carrying the marker 累计 (but no 次), and likewise a
note carrying the number 3, still trigger the finding. -/
theorem missing_cumulative_limit_marker_counterexample :
    emitsMissingCumulativeLimit "累计给付以3次为限" "累计" = true ∧
      strContains "累计" "累计" = true ∧
      emitsMissingCumulativeLimit "累计给付以3次为限" "3" = true ∧
      strContains "3" "3" = true := by
  decide

theorem splitWsGo_word (w : List Char) :
    ∀ cur rest, (∀ c ∈ w, isPyWs c = false) →
      splitWsGo cur (w ++ rest) = splitWsGo (w.reverse ++ cur) rest := by
  induction w with
  | nil => intro cur rest _; simp
  | cons c w' ih =>
    intro cur rest h
    have hc : isPyWs c = false := h c (by simp)
    show splitWsGo cur (c :: (w' ++ rest)) = _
    rw [ splitWsGo, if_neg (by simp [ hc])]
    rw [ ih (c :: cur) rest fun d hd => h d (by simp [ hd])]
    congr 1
    simp

theorem splitWsGo_words_clean (cs : List Char) :
    ∀ cur, (∀ c ∈ cur, isPyWs c = false) →
      ∀ w ∈ splitWsGo cur cs, w ≠ [] ∧ ∀ c ∈ w, isPyWs c = false := by
  induction cs with
  | nil =>
    intro cur hcur w hw
    rw [ splitWsGo] at hw
    by_cases h : cur.isEmpty
    · rw [ if_pos h] at hw
      cases hw
    · rw [ if_neg h] at hw
      rcases List.mem_singleton.mp hw with rfl
      refine ⟨?_, ?_⟩
      · intro hnil
        exact h (by simpa using List.reverse_eq_nil_iff.mp hnil)
      · intro c hc
        exact hcur c (List.mem_reverse.mp hc)
  | cons c rest ih =>
    intro cur hcur w hw
    rw [ splitWsGo] at hw
    by_cases hc : isPyWs c = true
    · rw [ if_pos (by simp [ hc])] at hw
      by_cases hce : cur.isEmpty
      · rw [ if_pos hce] at hw
        exact ih [] (by simp) w hw
      · rw [ if_neg hce] at hw
        rcases List.mem_cons.mp hw with rfl | hmem
        · refine ⟨?_, ?_⟩
          · intro hnil
            exact hce (by simpa using List.reverse_eq_nil_iff.mp hnil)
          · intro d hd
            exact hcur d (List.mem_reverse.mp hd)
        · exact ih [] (by simp) w hmem
    · rw [ if_neg (by simp [ hc])] at hw
      refine ih (c :: cur) ?_ w hw
      intro d hd
      rcases List.mem_cons.mp hd with rfl | hmem
      · exact Bool.eq_false_iff.mpr hc
      · exact hcur d hmem

theorem splitWsGo_words_sub (p : Char → Bool) (cs : List Char) :
    ∀ cur, (∀ c ∈ cur, p c = true) → (∀ c ∈ cs, p c = true) →
      ∀ w ∈ splitWsGo cur cs, ∀ c ∈ w, p c = true := by
  induction cs with
  | nil =>
    intro cur hcur _ w hw
    rw [ splitWsGo] at hw
    by_cases h : cur.isEmpty
    · rw [ if_pos h] at hw; cases hw
    · rw [ if_neg h] at hw
      rcases List.mem_singleton.mp hw with rfl
      exact fun c hc => hcur c (List.mem_reverse.mp hc)
  | cons c rest ih =>
    intro cur hcur hcs w hw
    rw [ splitWsGo] at hw
    have hcrest : ∀ d ∈ rest, p d = true := fun d hd => hcs d (by simp [ hd])
    by_cases hc : isPyWs c = true
    · rw [ if_pos (by simp [ hc])] at hw
      by_cases hce : cur.isEmpty
      · rw [ if_pos hce] at hw
        exact ih [] (by simp) hcrest w hw
      · rw [ if_neg hce] at hw
        rcases List.mem_cons.mp hw with rfl | hmem
        · exact fun d hd => hcur d (List.mem_reverse.mp hd)
        · exact ih [] (by simp) hcrest w hmem
    · rw [ if_neg (by simp [ hc])] at hw
      refine ih (c :: cur) ?_ hcrest w hw
      intro d hd
      rcases List.mem_cons.mp hd with rfl | hmem
      · exact hcs d (by simp)
      · exact hcur d hmem

theorem joinSplit (ws : List (List Char))
    (h : ∀ w ∈ ws, w ≠ [] ∧ ∀ c ∈ w, isPyWs c = false) :
    splitWsGo [] (joinWords ' ' ws) = ws := by
  induction ws with
  | nil => rfl
  | cons w ws' ih =>
    rcases h w (by simp) with ⟨hw, hwc⟩
    have hwr : w.reverse.isEmpty = false := by
      refine Bool.eq_false_iff.mpr ?_
      intro htrue
      rw [ List.isEmpty_iff] at htrue
      exact hw (by simpa using List.reverse_eq_nil_iff.mp htrue)
    cases ws' with
    | nil =>
      show splitWsGo [] w = [w]
      have hstep := splitWsGo_word w [] [] hwc
      rw [ List.append_nil, List.append_nil] at hstep
      rw [ hstep, splitWsGo, if_neg (by simp [ hwr]), List.reverse_reverse]
    | cons v ws'' =>
      show splitWsGo [] (w ++ ' ' :: joinWords ' ' (v :: ws'')) = w :: v :: ws''
      have hstep := splitWsGo_word w [] (' ' :: joinWords ' ' (v :: ws'')) hwc
      rw [ List.append_nil] at hstep
      rw [ hstep, splitWsGo, if_pos (by decide)]
      rw [ if_neg (by simp [ hwr]), List.reverse_reverse]
      congr 1
      exact ih fun u hu => h u (by simp [ hu])

theorem collapseWs_idem (cs : List Char) : collapseWs (collapseWs cs) = collapseWs cs := by
  show joinWords ' ' (splitWsGo [] (joinWords ' ' (splitWsGo [] cs))) = _
  rw [ joinSplit _ (splitWsGo_words_clean cs [] (by simp))]
  rfl

theorem joinWords_chars (ws : List (List Char)) (c : Char)
    (hc : c ∈ joinWords ' ' ws) : c = ' ' ∨ ∃ w ∈ ws, c ∈ w := by
  induction ws with
  | nil => cases hc
  | cons w ws' ih =>
    cases ws' with
    | nil => exact Or.inr ⟨w, by simp, hc⟩
    | cons v ws'' =>
      rcases List.mem_append.mp hc with h | h
      · exact Or.inr ⟨w, by simp, h⟩
      · rcases List.mem_cons.mp h with rfl | h2
        · exact Or.inl rfl
        · rcases ih h2 with hsp | ⟨u, hu, hcu⟩
          · exact Or.inl hsp
          · exact Or.inr ⟨u, by simp [ hu], hcu⟩

theorem collapseWs_chars (p : Char → Bool) (hsp : p ' ' = true) (cs : List Char)
    (h : ∀ c ∈ cs, p c = true) : ∀ c ∈ collapseWs cs, p c = true := by
  intro c hc
  rcases joinWords_chars _ _ hc with rfl | ⟨w, hw, hcw⟩
  · exact hsp
  · exact splitWsGo_words_sub p cs [] (by simp) h w hw c hcw

theorem mem_pyDelChar {t c : Char} {cs : List Char} (h : c ∈ pyDelChar t cs) :
    c ∈ cs ∧ (c == t) = false := by
  unfold pyDelChar at h
  refine ⟨List.mem_of_mem_filter h, ?_⟩
  have := List.of_mem_filter h
  simpa using this

theorem mem_pyMapChar {t r c : Char} {cs : List Char} (h : c ∈ pyMapChar t r cs) :
    c = r ∨ (c ∈ cs ∧ (c == t) = false) := by
  unfold pyMapChar at h
  rcases List.mem_map.mp h with ⟨a, ha, hfa⟩
  by_cases hat : (a == t) = true
  · left
    rw [← hfa, if_pos hat]
  · right
    have hfa' : a = c := by rwa [ if_neg hat] at hfa
    subst hfa'
    exact ⟨ha, Bool.eq_false_iff.mpr hat⟩

theorem pyDelChar_eq_self (t : Char) (cs : List Char)
    (h : ∀ c ∈ cs, (c == t) = false) : pyDelChar t cs = cs := by
  unfold pyDelChar
  refine List.filter_eq_self.mpr ?_
  intro c hc
  show (!(c == t)) = true
  rw [ h c hc]
  rfl

theorem pyMapChar_eq_self (t r : Char) (cs : List Char)
    (h : ∀ c ∈ cs, (c == t) = false) : pyMapChar t r cs = cs := by
  unfold pyMapChar
  induction cs with
  | nil => rfl
  | cons a as ih =>
    rw [ List.map_cons, if_neg (by simp [ h a (by simp)]), ih fun c hc => h c (by simp [ hc])]

/-- Every character of a normalized formula is clean. -/
theorem normalizeFormula_clean (f : String) :
    ∀ c ∈ (normalizeFormula f).data, formulaCleanChar c = true := by
  intro c hc
  unfold normalizeFormula at hc
  refine collapseWs_chars formulaCleanChar (by decide) _ ?_ c hc
  intro d hd
  rcases mem_pyMapChar hd with rfl | ⟨hd6, hX⟩
  · decide
  rcases mem_pyMapChar hd6 with rfl | ⟨hd5, hx⟩
  · decide
  rcases mem_pyMapChar hd5 with rfl | ⟨hd4, hmul⟩
  · decide
  rcases mem_pyDelChar hd4 with ⟨hd3, hsemi⟩
  rcases mem_pyDelChar hd3 with ⟨hd2, hperiod⟩
  rcases mem_pyDelChar hd2 with ⟨hd1, hcomma⟩
  rcases mem_pyDelChar hd1 with ⟨-, henum⟩
  simp [ formulaCleanChar, henum, hcomma, hperiod, hsemi, hmul, hx, hX]

/-- A clean string is a fixed point of the normalization chain. -/
theorem normalizeFormula_of_clean (f : String)
    (h : ∀ c ∈ f.data, formulaCleanChar c = true)
    (hw : collapseWs f.data = f.data) : normalizeFormula f = f := by
  have hch : ∀ (t : Char), (t == '、' || t == '，' || t == '。' || t == '；' ||
      t == '×' || t == 'x' || t == 'X') = true → ∀ c ∈ f.data, (c == t) = false := by
    intro t ht c hc
    have hcl := h c hc
    unfold formulaCleanChar at hcl
    rcases Bool.eq_false_or_eq_true (c == t) with hf | hf
    · exfalso
      have hct : c = t := eq_of_beq hf
      subst hct
      rw [ ht] at hcl
      simp at hcl
    · exact hf
  unfold normalizeFormula
  rw [ pyDelChar_eq_self _ _ (hch '、' (by decide)),
    pyDelChar_eq_self _ _ (hch '，' (by decide)),
    pyDelChar_eq_self _ _ (hch '。' (by decide)),
    pyDelChar_eq_self _ _ (hch '；' (by decide)),
    pyMapChar_eq_self _ _ _ (hch '×' (by decide)),
    pyMapChar_eq_self _ _ _ (hch 'x' (by decide)),
    pyMapChar_eq_self _ _ _ (hch 'X' (by decide)), hw]

/-- The normalization chain is idempotent. -/
theorem normalizeFormula_idem (f : String) :
    normalizeFormula (normalizeFormula f) = normalizeFormula f := by
  refine normalizeFormula_of_clean _ (normalizeFormula_clean f) ?_
  show collapseWs (collapseWs _) = _
  exact collapseWs_idem _

/-- The data of a normalization result is a fixed point of the whitespace
collapse. -/
theorem normalizeFormula_collapse (f : String) :
    collapseWs (normalizeFormula f).data = (normalizeFormula f).data := by
  unfold normalizeFormula
  exact collapseWs_idem _

/-- C10: `fix_formula_format` is idempotent and normalizing.  After one
application the stage's formula contains none of 、，。； and no
multiplication symbol besides `*` (every ×, x, X has been rewritten to `*`),
its whitespace is collapsed (the formula is a fixed point of
`' '.join(s.split())`), and a second application returns `False` and leaves
the stage unchanged. -/
theorem fixFormulaFormat_spec (st : Stage) :
    ((fixFormulaFormat st).1.formula.getD "").data.all formulaCleanChar = true ∧
    collapseWs ((fixFormulaFormat st).1.formula.getD "").data =
      ((fixFormulaFormat st).1.formula.getD "").data ∧
    fixFormulaFormat (fixFormulaFormat st).1 = ((fixFormulaFormat st).1, false) := by
  refine ⟨?_, ?_, ?_⟩
  · unfold fixFormulaFormat
    by_cases h0 : st.formula.getD "" = ""
    · rw [ if_pos h0]
      simp only
      rw [ h0]
      decide
    · rw [ if_neg h0]
      by_cases hch : normalizeFormula (st.formula.getD "") ≠ st.formula.getD ""
      · rw [ if_pos hch]
        exact List.all_eq_true.mpr (normalizeFormula_clean _)
      · rw [ if_neg hch]
        simp only
        rw [← not_ne_iff.mp hch]
        exact List.all_eq_true.mpr (normalizeFormula_clean _)
  · unfold fixFormulaFormat
    by_cases h0 : st.formula.getD "" = ""
    · rw [ if_pos h0]
      simp only
      rw [ h0]
      decide
    · rw [ if_neg h0]
      by_cases hch : normalizeFormula (st.formula.getD "") ≠ st.formula.getD ""
      · rw [ if_pos hch]
        exact normalizeFormula_collapse _
      · rw [ if_neg hch]
        simp only
        rw [← not_ne_iff.mp hch]
        exact normalizeFormula_collapse _
  · unfold fixFormulaFormat
    by_cases h0 : st.formula.getD "" = ""
    · rw [ if_pos h0]
      simp only
      rw [ if_pos h0]
    · rw [ if_neg h0]
      by_cases hch : normalizeFormula (st.formula.getD "") ≠ st.formula.getD ""
      · rw [ if_pos hch]
        simp only [Option.getD_some]
        by_cases hn0 : normalizeFormula (st.formula.getD "") = ""
        · rw [ if_pos hn0]
        · rw [ if_neg hn0, if_neg (by simp [ normalizeFormula_idem])]
      · rw [ if_neg hch]
        simp only
        rw [ if_neg h0, if_neg hch]

theorem cumNewNote_marks (note vStr : String) :
    strContains (cumNewNote note vStr) "累计" = true ∧
      strContains (cumNewNote note vStr) "次" = true := by
  have hin1 : strContains ("累计最多赔" ++ vStr ++ "次") "累计" = true :=
    strContains_append_left _ _ _ (strContains_append_left _ _ _ (by decide))
  have hin2 : strContains ("累计最多赔" ++ vStr ++ "次") "次" = true :=
    strContains_append_right _ _ _ (by decide)
  unfold cumNewNote
  by_cases h0 : note != ""
  · rw [ if_pos h0]
    by_cases h1 : strContains note "每种"
    · rw [ if_pos h1]
      rcases pySplit1 note '；' with _ | ⟨p0, _ | ⟨p1, _ | _⟩⟩ <;>
        simp only
      · exact ⟨strContains_append_right _ _ _ hin1, strContains_append_right _ _ _ hin2⟩
      · exact ⟨strContains_append_right _ _ _ hin1, strContains_append_right _ _ _ hin2⟩
      · constructor
        · refine strContains_append_left _ _ _ ?_
          refine strContains_append_left _ _ _ ?_
          exact strContains_append_right _ _ _ hin1
        · refine strContains_append_left _ _ _ ?_
          refine strContains_append_left _ _ _ ?_
          exact strContains_append_right _ _ _ hin2
      · exact ⟨strContains_append_right _ _ _ hin1, strContains_append_right _ _ _ hin2⟩
    · rw [ if_neg h1]
      exact ⟨strContains_append_left _ _ _ (strContains_append_left _ _ _ hin1),
        strContains_append_left _ _ _ (strContains_append_left _ _ _ hin2)⟩
  · rw [ if_neg h0]
    exact ⟨hin1, hin2⟩

theorem cumNoteHas_cumNewNote (note vStr : String) (v : CNum) :
    cumNoteHas (cumNewNote note vStr) v = true := by
  unfold cumNoteHas
  refine orIntroL (andIntro (cumNewNote_marks note vStr).1 ?_)
  exact orIntroL (cumNewNote_marks note vStr).2

theorem fixCumulativeLimitNote_idem (c : Case) :
    fixCumulativeLimitNote (fixCumulativeLimitNote c).1 =
      ((fixCumulativeLimitNote c).1, false) := by
  rcases hv : hasCumulativeLimit (c.rawText.getD "") with _ | v
  · have h1 : fixCumulativeLimitNote c = (c, false) := by
      unfold fixCumulativeLimitNote
      simp only [ hv]
    rw [ h1]
    exact h1
  · by_cases htr : cnumTruthy v = false
    · have h1 : fixCumulativeLimitNote c = (c, false) := by
        unfold fixCumulativeLimitNote
        simp only [ hv, htr, if_true]
      rw [ h1]
      exact h1
    · by_cases hhas : cumNoteHas (c.note.getD "") v = true
      · have h1 : fixCumulativeLimitNote c = (c, false) := by
          unfold fixCumulativeLimitNote
          simp only [ hv, htr, if_false]
          rw [ if_pos hhas]
          simp
        rw [ h1]
        exact h1
      · have h1 : fixCumulativeLimitNote c =
            ({ c with note := some (cumNewNote (c.note.getD "") (pyStrOfCNum v)) }, true) := by
          unfold fixCumulativeLimitNote
          simp only [ hv, htr, if_false]
          rw [ if_neg hhas]
          simp
        rw [ h1]
        show fixCumulativeLimitNote
          { c with note := some (cumNewNote (c.note.getD "") (pyStrOfCNum v)) } = _
        unfold fixCumulativeLimitNote
        have hraw : ({ c with
            note := some (cumNewNote (c.note.getD "") (pyStrOfCNum v)) } : Case).rawText
            = c.rawText := rfl
        rw [ hraw]
        simp only [ hv, htr, if_false, Option.getD_some]
        rw [ if_pos (cumNoteHas_cumNewNote _ _ _)]
        simp

theorem hasPayoutLimit_prepend (rest : List Char) :
    dotRangeSearch "给付以".data "次为限".data
      ('给' :: '付' :: '以' :: '1' :: '次' :: '为' :: '限' :: rest) = true := by
  rw [ dotRangeSearch]
  refine orIntroL ?_
  have h1 : dropPfx "给付以".data
      ('给' :: '付' :: '以' :: '1' :: '次' :: '为' :: '限' :: rest) =
      some ('1' :: '次' :: '为' :: '限' :: rest) := rfl
  rw [ dotRangeAt, h1]
  exact orIntroL rfl

theorem fixTerminationNote_idem (c : Case) :
    fixTerminationNote (fixTerminationNote c).1 = ((fixTerminationNote c).1, false) := by
  unfold fixTerminationNote
  by_cases ht : hasTermination (c.rawText.getD "") = false
  · simp [ ht]
  · rw [ if_neg ht]
    by_cases hp : hasPayoutLimit (c.note.getD "") = true
    · rw [ if_pos hp]
      rw [ if_neg ht, if_pos hp]
    · rw [ if_neg hp]
      simp only [ Option.getD_some]
      rw [ if_neg ht, if_pos ?_]
      unfold hasPayoutLimit
      refine orIntroL (orIntroL (orIntroL ?_))
      by_cases h0 : c.note.getD "" != ""
      · rw [ if_pos h0]
        show dotRangeSearch "给付以".data "次为限".data
          (("给付以1次为限" ++ "；" ++ (c.note.getD "")).data) = true
        have hd : ("给付以1次为限" ++ "；" ++ (c.note.getD "")).data =
            '给' :: '付' :: '以' :: '1' :: '次' :: '为' :: '限' ::
              ('；' :: (c.note.getD "").data) := by
          rw [ String.data_append, String.data_append]
          rfl
        rw [ hd]
        exact hasPayoutLimit_prepend _
      · rw [ if_neg h0]
        show dotRangeSearch "给付以".data "次为限".data ("给付以1次为限").data = true
        exact hasPayoutLimit_prepend []

theorem fixPaymentPeriodStage_isSome (status : String) (st : Stage) :
    (fixPaymentPeriodStage status st).paymentPeriodStatus.isSome = true := by
  unfold fixPaymentPeriodStage
  by_cases h : st.paymentPeriodStatus.isSome
  · rw [ if_pos h]
    exact h
  · rw [ if_neg h]
    simp only
    by_cases h2 : st.naturalLanguageDescription.getD "" != ""
    · rw [ if_pos h2]
      rfl
    · rw [ if_neg h2]
      rfl

theorem fixPaymentPeriodStage_idem (status : String) (st : Stage) :
    fixPaymentPeriodStage status (fixPaymentPeriodStage status st) =
      fixPaymentPeriodStage status st := by
  conv_lhs => rw [ fixPaymentPeriodStage]
  rw [ if_pos (fixPaymentPeriodStage_isSome status st)]

theorem fixPaymentPeriod_idem (c : Case) :
    fixPaymentPeriod (fixPaymentPeriod c).1 = ((fixPaymentPeriod c).1, 0) := by
  unfold fixPaymentPeriod
  rcases hd : detectPaymentPeriod (c.rawText.getD "") with _ | status
  · simp [ hd]
  · rcases hp : c.payoutAmount with _ | stages
    · simp [ hd, hp]
    · simp only [ hd, hp, Option.getD_some]
      have hmap : (stages.map (fixPaymentPeriodStage status)).map
          (fixPaymentPeriodStage status) = stages.map (fixPaymentPeriodStage status) := by
        rw [ List.map_map]
        refine List.map_congr_left ?_
        intro st _
        exact fixPaymentPeriodStage_idem status st
      have hfil : (stages.map (fixPaymentPeriodStage status)).filter
          (fun st => st.paymentPeriodStatus.isNone) = [] := by
        refine List.filter_eq_nil_iff.mpr ?_
        intro st hst
        rcases List.mem_map.mp hst with ⟨st0, -, rfl⟩
        simp [ Option.isNone_iff_eq_none]
        intro hnone
        have := fixPaymentPeriodStage_isSome status st0
        rw [ hnone] at this
        exact absurd this (by simp)
      rw [ hmap, hfil]
      rfl

theorem removeStageLevelNote_idem (st : Stage) :
    removeStageLevelNote (removeStageLevelNote st).1 = ((removeStageLevelNote st).1, false) := by
  unfold removeStageLevelNote
  rcases h : st.note with _ | n
  · simp [ h]
  · simp

theorem addContinuousPaymentFrequency_case_idem (st : Stage) :
    (addContinuousPaymentFrequency (addContinuousPaymentFrequency st).1).1 =
      (addContinuousPaymentFrequency st).1 := by
  unfold addContinuousPaymentFrequency
  rcases h : st.continuousPayment with _ | cp
  · simp [ h]
  · by_cases htr : cpTruthy cp
    · by_cases hf : cp.frequency.isSome
      · simp [ h, htr, hf]
      · by_cases ht1 : cp.cpType == some "fixed_count"
        · have hty : cp.cpType = some "fixed_count" := by simpa using ht1
          simp [ h, hf, hty, cpTruthy]
        · by_cases ht2 : cp.cpType == some "until_termination"
          · have hty : cp.cpType = some "until_termination" := by simpa using ht2
            simp [ h, hf, ht1, hty, cpTruthy]
          · simp [ h, htr, hf, ht1, ht2]
    · simp [ h, htr]

theorem addContinuousPaymentFrequency_unrecognized (st : Stage)
    (cp : ContinuousPayment) (hcp : st.continuousPayment = some cp)
    (htr : cpTruthy cp = true) (hf : cp.frequency = none)
    (h1 : cp.cpType ≠ some "fixed_count")
    (h2 : cp.cpType ≠ some "until_termination") :
    addContinuousPaymentFrequency st = (st, true) := by
  unfold addContinuousPaymentFrequency
  have e1 : (cp.cpType == some "fixed_count") = false := by
    simp [ h1]
  have e2 : (cp.cpType == some "until_termination") = false := by
    simp [ h2]
  simp [ hcp, htr, hf, e1, e2]

/-- C2 (amended): the repairs `fix_cumulative_limit_note`,
`fix_termination_note`, `fix_payment_period`, `remove_stage_level_note` and
`add_continuous_payment_frequency` are idempotent in their effect on the
record — re-running any of them on the result of a first run changes
nothing.  The first four also report no modification on the second run
(`False`, resp. `0` stages).  `add_continuous_payment_frequency` does not:
whenever the stage's `continuousPayment` is present (non-empty dict), lacks
`frequency` and has a type other than `fixed_count`/`until_termination`, it
returns `True` while changing nothing — on the first run and on every rerun
alike.  `fix_description_completeness` applied via `apply_fixes` is NOT
idempotent even on the record — see the counterexample. -/
theorem repairer_idempotence_spec :
    (∀ c : Case, fixCumulativeLimitNote (fixCumulativeLimitNote c).1 =
        ((fixCumulativeLimitNote c).1, false)) ∧
    (∀ c : Case, fixTerminationNote (fixTerminationNote c).1 =
        ((fixTerminationNote c).1, false)) ∧
    (∀ c : Case, fixPaymentPeriod (fixPaymentPeriod c).1 = ((fixPaymentPeriod c).1, 0)) ∧
    (∀ st : Stage, removeStageLevelNote (removeStageLevelNote st).1 =
        ((removeStageLevelNote st).1, false)) ∧
    (∀ st : Stage, (addContinuousPaymentFrequency (addContinuousPaymentFrequency st).1).1 =
        (addContinuousPaymentFrequency st).1) ∧
    (∀ st : Stage, ∀ cp : ContinuousPayment, st.continuousPayment = some cp →
      cpTruthy cp = true → cp.frequency = none →
      cp.cpType ≠ some "fixed_count" → cp.cpType ≠ some "until_termination" →
      addContinuousPaymentFrequency st = (st, true)) :=
  ⟨fixCumulativeLimitNote_idem, fixTerminationNote_idem, fixPaymentPeriod_idem,
    removeStageLevelNote_idem, addContinuousPaymentFrequency_case_idem,
    addContinuousPaymentFrequency_unrecognized⟩

/-- Tests the last conjunct of the idempotence theorem on a concrete stage:
a present continuousPayment of unrecognized type with no frequency makes
the fixer report a change while performing none. -/
theorem repairer_idempotence_spec_witness :
    addContinuousPaymentFrequency witFreqStage = (witFreqStage, true) :=
  repairer_idempotence_spec.2.2.2.2.2 witFreqStage { cpType := some "annual" }
    rfl (by decide) rfl (by decide) (by decide)

/-- C2 counterexample: re-applying the Repairer to an already-patched Case
against the same Findings is NOT always a no-op.  On a stage with a
range-operator age condition (perpetually incomplete description) and a
fixed-count continuous payment, the `incomplete_description` repair of
`apply_fixes` appends another （分2次） suffix on every run: the first run
produces 确诊，每年按基本保额的70%赔付（分2次）, the second changes the Case
again. -/
theorem repairer_not_idempotent_counterexample :
    applyDescFix (applyDescFix cexDescCase 0) 0 ≠ applyDescFix cexDescCase 0 ∧
    ((applyDescFix cexDescCase 0).payoutAmount.getD []).map
        (fun s => s.naturalLanguageDescription) =
      [some "确诊，每年按基本保额的70%赔付（分2次）"] ∧
    ((applyDescFix (applyDescFix cexDescCase 0) 0).payoutAmount.getD []).map
        (fun s => s.naturalLanguageDescription) =
      [some "确诊，每年按基本保额的70%赔付（分2次）（分2次）"] := by
  refine ⟨by decide, by decide, by decide⟩

theorem fixCaseStage_note_none (st : Stage) : (fixCaseStage st).note = none := by
  unfold fixCaseStage
  rcases hn : st.note with _ | n
  · rcases hc : st.continuousPayment with _ | cp
    · simp [ hn, hc]
    · by_cases hf : cp.frequency.isNone <;> simp [ hn, hc, hf]
  · rcases hc : st.continuousPayment with _ | cp
    · simp [ hn, hc]
    · by_cases hf : cp.frequency.isNone <;> simp [ hn, hc, hf]

theorem mem_dedupFirstGo (y : String) (l : List String) :
    ∀ seen, y ∈ dedupFirstGo seen l ↔ (y ∈ l ∧ y ∉ seen) := by
  induction l with
  | nil => intro seen; simp [ dedupFirstGo]
  | cons x xs ih =>
    intro seen
    unfold dedupFirstGo
    by_cases hx : x ∈ seen
    · rw [ if_pos hx, ih]
      constructor
      · rintro ⟨h1, h2⟩
        exact ⟨List.mem_cons_of_mem _ h1, h2⟩
      · rintro ⟨h1, h2⟩
        rcases List.mem_cons.mp h1 with rfl | h1
        · exact absurd hx h2
        · exact ⟨h1, h2⟩
    · rw [ if_neg hx]
      constructor
      · intro hmem
        rcases List.mem_cons.mp hmem with rfl | hmem
        · exact ⟨List.mem_cons_self _ _, hx⟩
        · rcases (ih (x :: seen)).mp hmem with ⟨h1, h2⟩
          exact ⟨List.mem_cons_of_mem _ h1, fun hs => h2 (List.mem_cons_of_mem _ hs)⟩
      · rintro ⟨h1, h2⟩
        rcases List.mem_cons.mp h1 with rfl | h1
        · exact List.mem_cons_self _ _
        · by_cases hyx : y = x
          · subst hyx
            exact List.mem_cons_self _ _
          · refine List.mem_cons_of_mem _ ((ih (x :: seen)).mpr ⟨h1, ?_⟩)
            intro hs
            rcases List.mem_cons.mp hs with h | h
            · exact hyx h
            · exact h2 h

theorem mem_dedupFirst (y : String) (l : List String) :
    y ∈ dedupFirst l ↔ y ∈ l := by
  unfold dedupFirst
  rw [ mem_dedupFirstGo]
  simp

/-- The `payoutAmount` of a `fix_case` result: every stage has been passed
through the stage mutation. -/
theorem fixCase_payoutAmount (case : Case) :
    (fixCase case).1.payoutAmount = case.payoutAmount.map (List.map fixCaseStage) := by
  unfold fixCase
  rcases hn : case.naturalLanguageDescription with _ | d <;>
    rcases hp : case.payoutAmount with _ | stages <;>
      simp only [ hn, hp, Option.map_none, Option.map_some]
  · rfl
  · by_cases he : (stages.flatMap stageCollectNotes).isEmpty = true
    · rw [ if_pos he]
      rfl
    · rw [ if_neg he]
      by_cases hd : (dedupFirst (stages.flatMap stageCollectNotes)).isEmpty = true
      · rw [ if_pos hd]
        rfl
      · rw [ if_neg hd]
        rfl
  · rfl
  · by_cases he : (stages.flatMap stageCollectNotes).isEmpty = true
    · rw [ if_pos he]
      rfl
    · rw [ if_neg he]
      by_cases hd : (dedupFirst (stages.flatMap stageCollectNotes)).isEmpty = true
      · rw [ if_pos hd]
        rfl
      · rw [ if_neg hd]
        rfl

/-- The case-level note of a `fix_case` result when some stage-note parts
survive the filter. -/
theorem fixCase_note (case : Case) (stages : List Stage)
    (hpa : case.payoutAmount = some stages)
    (hne : (stages.flatMap stageCollectNotes).isEmpty = false) :
    (fixCase case).1.note =
      some (joinSepStr "；" (dedupFirst (stages.flatMap stageCollectNotes))) := by
  have hne' : stages.flatMap stageCollectNotes ≠ [] := by
    intro h0
    rw [ h0] at hne
    simp at hne
  obtain ⟨x, hx⟩ := List.exists_mem_of_ne_nil _ hne'
  have hxd : x ∈ dedupFirst (stages.flatMap stageCollectNotes) :=
    (mem_dedupFirst _ _).mpr hx
  have hd : (dedupFirst (stages.flatMap stageCollectNotes)).isEmpty = false := by
    refine Bool.eq_false_iff.mpr ?_
    intro hemp
    rw [ List.isEmpty_iff] at hemp
    rw [ hemp] at hxd
    cases hxd
  unfold fixCase
  rcases hn : case.naturalLanguageDescription with _ | d
  · simp only [ hn, hpa]
    rw [ if_neg (by rw [ hne]; exact Bool.false_ne_true),
      if_neg (by rw [ hd]; exact Bool.false_ne_true)]
  · simp only [ hn, hpa]
    rw [ if_neg (by rw [ hne]; exact Bool.false_ne_true),
      if_neg (by rw [ hd]; exact Bool.false_ne_true)]

/-- C3 (amended): after a `fix_case` pass no stage carries a note, and every
stage-note part that passes the keyword filter (contains a whitelist keyword
and no blacklist keyword) survives, deduplicated, into the case-level note.
Parts outside the whitelist are discarded — see the counterexample. -/
theorem stage_note_merge_spec (case : Case) :
    (∀ st ∈ (fixCase case).1.payoutAmount.getD [], st.note = none) ∧
    (∀ st ∈ case.payoutAmount.getD [], ∀ ns, st.note = some ns →
      (pyStrip ns != "") = true →
      ∀ part ∈ pySplitChar (pyStrip ns) '；',
        (skipKeywords.any fun kw => strContains (pyStrip part) kw) = false →
        (keepKeywords.any fun kw => strContains (pyStrip part) kw) = true →
        strContains ((fixCase case).1.note.getD "") (pyStrip part) = true) := by
  constructor
  · intro st hst
    rw [ fixCase_payoutAmount] at hst
    rcases hp : case.payoutAmount with _ | stages
    · rw [ hp] at hst
      cases hst
    · rw [ hp] at hst
      simp only [ Option.map_some', Option.getD_some] at hst
      rcases List.mem_map.mp hst with ⟨st0, -, rfl⟩
      exact fixCaseStage_note_none st0
  · intro st hst ns hns hstrip part hpart hskip hkeep
    rcases hp : case.payoutAmount with _ | stages
    · rw [ hp] at hst
      cases hst
    · rw [ hp] at hst
      simp only [ Option.getD_some] at hst
      have hmemf : pyStrip part ∈ filterNoteParts (pyStrip ns) := by
        unfold filterNoteParts
        refine List.mem_filterMap.mpr ⟨part, hpart, ?_⟩
        rw [ hskip]
        simp only [ Bool.false_eq_true, if_false, hkeep, if_true]
      have hmemc : pyStrip part ∈ stageCollectNotes st := by
        unfold stageCollectNotes
        rw [ hns]
        simp only [ hstrip, if_true]
        exact hmemf
      have hmem : pyStrip part ∈ stages.flatMap stageCollectNotes :=
        List.mem_flatMap.mpr ⟨st, hst, hmemc⟩
      have hne : (stages.flatMap stageCollectNotes).isEmpty = false := by
        rcases hh : stages.flatMap stageCollectNotes with _ | _
        · rw [ hh] at hmem
          cases hmem
        · simp
      rw [ fixCase_note case stages hp hne]
      simp only [ Option.getD_some]
      refine strContains_joinSepStr _ _ _ ?_
      rw [ mem_dedupFirst]
      exact hmem

/-- Witness for `stage_note_merge_spec` at a concrete case: the whitelisted
part 限赔1次 of a stage note survives into the case-level note. -/
theorem stage_note_merge_spec_witness :
    strContains ((fixCase witNoteCase).1.note.getD "") (pyStrip "限赔1次") = true :=
  (stage_note_merge_spec witNoteCase).2 { stageNumber := 1, note := some "限赔1次" }
    (by decide) "限赔1次" rfl (by decide) "限赔1次" (by decide) (by decide) (by decide)

/-- C3 counterexample: the claim "the case-level note contains every distinct
phrase previously present in stage-level notes — no phrase content is
silently discarded" is false.  The stage note 间隔90日 (an interval
requirement, whitelisted only as 需间隔) is deleted from the stage and never
reaches the case-level note, which stays absent. -/
theorem stage_note_merge_counterexample :
    (fixCase cexNoteCase).1.note = none ∧
      ((fixCase cexNoteCase).1.payoutAmount.getD []).all
        (fun st => st.note.isNone) = true ∧
      strContains ((fixCase cexNoteCase).1.note.getD "") "间隔90日" = false := by
  refine ⟨by decide, by decide, by decide⟩

/-! The age / policy-year / payment-period extractors imported from
`generate_batch14_complex.py` are 60-odd regex rules whose results are only
attached, never inspected, by `parse_remaining_case`; they enter the
embedding as function parameters (`extAge`, `extYear`, `extPay`), so the
statements below hold for the real extractors as a special case. -/

/-- C1 (amended): for clause text carrying premium-return language and a
during-waiting marker — and no tabular reference 下表/表格, which takes
precedence (see the counterexample) — `parse_remaining_case` yields exactly
two stages: stage 1 is the fixed during-waiting stage with formula 已交保费
and no age/year/note qualifiers, stage 2 the after-waiting stage with
formula 基本保额 * 100%, and the extracted age conditions and policy-year
range attach to stage 2 only.  Stated for arbitrary extractors, so it holds
for `extract_age_conditions`/`extract_policy_year_range` in particular. -/
theorem waiting_premium_split_spec
    (extAge : String → Option (List AgeCondition))
    (extYear : String → Option PolicyYear) (extPay : String → Option String)
    (seq : Int) (code category name text : String)
    (hprem : strContains text "已交保费" = true ∨ strContains text "已交纳" = true ∨
      strContains text "已支付的保险费" = true)
    (hwait : strContains text "等待期内" = true ∨ strContains text "180日内" = true ∨
      strContains text "90日内" = true)
    (htab1 : strContains text "下表" = false) (htab2 : strContains text "表格" = false) :
    (parseRemainingCase extAge extYear extPay seq code category name text).payoutAmount =
        some [waitStage, afterStageFor extAge extYear text] ∧
      waitStage.ageConditions = none ∧ waitStage.policyYearRange = none ∧
      waitStage.note = none ∧ waitStage.formula = some "已交保费" ∧
      (afterStageFor extAge extYear text).formula = some "基本保额 * 100%" ∧
      (afterStageFor extAge extYear text).note = none ∧
      (afterStageFor extAge extYear text).paymentPeriodStatus = none ∧
      (∀ l, extAge text = some l → l.isEmpty = false →
        (afterStageFor extAge extYear text).ageConditions = some l) ∧
      (∀ py, extYear text = some py →
        (afterStageFor extAge extYear text).policyYearRange = some py) := by
  have hafter : ∀ st : Stage,
      (attachYear extYear text (attachAge extAge text st)).note = st.note ∧
      (attachYear extYear text (attachAge extAge text st)).paymentPeriodStatus =
        st.paymentPeriodStatus ∧
      (attachYear extYear text (attachAge extAge text st)).formula = st.formula := by
    intro st
    unfold attachYear attachAge
    rcases extAge text with _ | l <;> rcases extYear text with _ | py <;>
      first
      | exact ⟨rfl, rfl, rfl⟩
      | (by_cases hl : l.isEmpty <;> simp [ hl])
  refine ⟨?_, rfl, rfl, rfl, rfl, (hafter _).2.2, (hafter _).1, (hafter _).2.1, ?_, ?_⟩
  · unfold parseRemainingCase
    rw [ if_neg (by rw [ htab1, htab2]; simp)]
    rw [ if_pos (by rcases hprem with h | h | h <;> rw [ h] <;> simp)]
    rw [ if_pos (by rcases hwait with h | h | h <;> rw [ h] <;> simp)]
  · intro l hl hne
    unfold afterStageFor attachYear attachAge
    rw [ hl]
    rcases extYear text with _ | py <;> simp [ hne]
  · intro py hpy
    unfold afterStageFor attachYear
    rw [ hpy]

/-- Witness for `waiting_premium_split_spec` at a concrete clause and
concrete extractor results. -/
theorem waiting_premium_split_spec_witness :
    (parseRemainingCase (fun _ => some [{ operator := some ">=", limit := some 18 }])
        (fun _ => none) (fun _ => none) 7 "P7" "重疾" "恶性肿瘤"
        "等待期内退还已交保费").payoutAmount =
      some [waitStage,
        afterStageFor (fun _ => some [{ operator := some ">=", limit := some 18 }])
          (fun _ => none) "等待期内退还已交保费"] :=
  (waiting_premium_split_spec _ _ _ 7 "P7" "重疾" "恶性肿瘤" "等待期内退还已交保费"
    (Or.inl (by decide)) (Or.inl (by decide)) (by decide) (by decide)).1

/-- C1 counterexample: the claim quantifies over EVERY clause with
premium-return language and a during-waiting marker, but the tabular branch
of `parse_remaining_case` is checked first: this clause contains 已交保费
and 等待期内 yet produces ONE stage with formula 按表格赔付, not two. -/
theorem waiting_premium_split_counterexample :
    strContains "下表等待期内退还已交保费" "已交保费" = true ∧
      strContains "下表等待期内退还已交保费" "等待期内" = true ∧
      (cexTableCase.payoutAmount.getD []).length = 1 ∧
      (cexTableCase.payoutAmount.getD []).map (fun s => s.formula) =
        [some "按表格赔付"] := by
  refine ⟨by decide, by decide, by decide, by decide⟩

theorem parseRemainingCase_seqId (extAge : String → Option (List AgeCondition))
    (extYear : String → Option PolicyYear) (extPay : String → Option String)
    (seq : Int) (code category name text : String) :
    (parseRemainingCase extAge extYear extPay seq code category name text).seqId =
      seq := by
  unfold parseRemainingCase singleStageCase
  split
  · split <;> rfl
  · split
    · split
      · rfl
      · split <;> rfl
    · split
      · split <;> rfl
      · split
        · split <;> split <;> rfl
        · split <;> rfl

/-- C5 (amended): the batch-14 merge appends the newly parsed cases and
sorts by 序号, so the result is globally ordered by sequence id; a line
whose sequence id already occurs among the existing cases is silently
skipped (never added, never reported), so for every already-present id the
merged corpus holds exactly as many cases with that id as before. -/
theorem merge_order_and_skip_spec
    (extAge : String → Option (List AgeCondition))
    (extYear : String → Option PolicyYear) (extPay : String → Option String)
    (existing : List Case) (lines : List String) :
    (mergeBatch extAge extYear extPay existing lines).Pairwise
        (fun a b => a.seqId ≤ b.seqId) ∧
      ∀ s : Int, s ∈ existing.map Case.seqId →
        (mergeBatch extAge extYear extPay existing lines).countP
            (fun c => c.seqId == s) =
          existing.countP (fun c => c.seqId == s) := by
  constructor
  · refine List.Pairwise.imp ?_
      (List.sorted_mergeSort ?_ ?_
        (existing ++ newCasesOf extAge extYear extPay (existing.map Case.seqId) lines))
    · intro a b h
      simpa [ caseLe] using h
    · intro a b c hab hbc
      simp only [ caseLe, decide_eq_true_eq] at hab hbc ⊢
      omega
    · intro a b
      simp only [ caseLe]
      rcases Int.le_total a.seqId b.seqId with h | h <;> simp [ h]
  · intro s hs
    unfold mergeBatch
    rw [ (List.mergeSort_perm _ _).countP_eq, List.countP_append]
    have hnew : (newCasesOf extAge extYear extPay (existing.map Case.seqId)
        lines).countP (fun c => c.seqId == s) = 0 := by
      rw [ List.countP_eq_zero]
      intro c hc
      rcases List.mem_filterMap.mp hc with ⟨line, -, hline⟩
      rcases hsp : pySplitBars (pyStrip line) with _ | ⟨p0, _ | ⟨p1, _ | ⟨p2, _ | ⟨p3, _ | ⟨p4, ps⟩⟩⟩⟩⟩ <;>
        rw [ hsp] at hline <;> simp only at hline
      · cases hline
      · cases hline
      · cases hline
      · cases hline
      · cases hline
      · by_cases hdig : isAsciiDigits p0 = true
        · rw [ if_pos hdig] at hline
          by_cases hcond : (digitsToNat p0.data : Int) ∉ existing.map Case.seqId ∧
              (digitsToNat p0.data : Int) ≤ 2800
          · rw [ if_pos hcond] at hline
            have hc' : c = parseRemainingCase extAge extYear extPay
                (digitsToNat p0.data : Int) p1 p2 p3 p4 := by
              cases hline
              rfl
            have hseq : c.seqId = (digitsToNat p0.data : Int) := by
              rw [ hc', parseRemainingCase_seqId]
            simp only [ hseq, beq_iff_eq]
            intro heq
            exact hcond.1 (heq ▸ hs)
          · rw [ if_neg hcond] at hline
            cases hline
        · rw [ if_neg hdig] at hline
          cases hline
    rw [ hnew]
    omega

/-- C5 counterexample: the claim "every duplicate sequenceId appearing in
both sources is treated as a fatal, reported conflict — never silently
dropped or skipped" is false: merging a raw line with the already-present
sequence id 2601 silently drops the new record and returns the existing
corpus unchanged; the merge has no error channel at all. -/
theorem merge_duplicate_counterexample :
    mergeBatch (fun _ => none) (fun _ => none) (fun _ => none) [cexMergeExisting]
      ["2601|||P1|||重疾|||恶性肿瘤|||等待期后按基本保额给付"] = [cexMergeExisting] := by
  unfold mergeBatch
  have hnew : newCasesOf (fun _ => none) (fun _ => none) (fun _ => none)
      ([cexMergeExisting].map Case.seqId)
      ["2601|||P1|||重疾|||恶性肿瘤|||等待期后按基本保额给付"] = [] := by
    decide
  rw [ hnew, List.append_nil, List.mergeSort_singleton]

/-- Witness for `merge_order_and_skip_spec` at a concrete corpus: the
already-present id 2601 keeps its single case through a merge. -/
theorem merge_order_and_skip_spec_witness :
    (mergeBatch (fun _ => none) (fun _ => none) (fun _ => none) [cexMergeExisting]
        ["2601|||P1|||重疾|||恶性肿瘤|||等待期后按基本保额给付"]).countP
        (fun c => c.seqId == 2601) =
      [cexMergeExisting].countP (fun c => c.seqId == 2601) :=
  (merge_order_and_skip_spec (fun _ => none) (fun _ => none) (fun _ => none)
    [cexMergeExisting] ["2601|||P1|||重疾|||恶性肿瘤|||等待期后按基本保额给付"]).2
    2601 (by decide)

/-- C7: `load_raw_data` does NOT skip a five-field record with a non-numeric
sequence number — the unguarded `int(parts[0])` raises `ValueError` and the
whole batch aborts, losing the well-formed records around it, while
`parse_md_file` (the loader the spec describes) skips the same record and
continues.  Records with fewer than five fields are skipped by both. -/
theorem malformed_record_divergence :
    loadRawDataLines 1 4000
        ["1|||A|||B|||C|||D", badSeqLine, "2|||A|||B|||C|||D"] =
      .error ("ValueError: invalid literal for int(): " ++ "x123") ∧
    (parseMdLines ["1|||A|||B|||C|||D", badSeqLine, "2|||A|||B|||C|||D"]).map
        Prod.fst = [1, 2] ∧
    loadRawDataLines 1 4000 ["1|||A|||B|||C|||D", "short|||line", "2|||A|||B|||C|||D"] =
      .ok [(1, ⟨"A", "B", "C", "D"⟩), (2, ⟨"A", "B", "C", "D"⟩)] := by
  refine ⟨rfl, by decide, rfl⟩

end PolicyIns
